import Mathlib

/-!
Verification of the BLisp language pipeline (tokenizer, parser, evaluator)
from the interprete-rs repository.  The Rust sources in src/blisp are shallowly
embedded: fallible functions return `PRes` which distinguishes ordinary errors
(`Result::Err` in the source) from aborts (`panic!`, `assert!`, `unimplemented!`,
out-of-bounds indexing).  Machine integers are modelled as `Nat`/`Int` with
explicit wrapping where the source can overflow; `f64` payloads are modelled as
`Rat` (exact for the dyadic literal values exercised here).
-/

namespace BLisp

/-- Result type: `ok` mirrors `Ok`, `err` mirrors `Err(InterpretError)` and
`panic` mirrors a Rust abort (`panic!`/`assert!`/`unimplemented!`/index OOB). -/
inductive PRes (α : Type) where
  | ok (a : α)
  | err (e : String)
  | panic (e : String)
deriving DecidableEq

def PRes.bind {α β : Type} : PRes α → (α → PRes β) → PRes β
  | .ok a, f => f a
  | .err e, _ => .err e
  | .panic e, _ => .panic e

instance : Monad PRes where
  pure := PRes.ok
  bind := PRes.bind

def PRes.isOk {α : Type} : PRes α → Bool
  | .ok _ => true
  | _ => false

def PRes.isErr {α : Type} : PRes α → Bool
  | .err _ => true
  | _ => false

def PRes.isPanic {α : Type} : PRes α → Bool
  | .panic _ => true
  | _ => false

def PRes.toOption {α : Type} : PRes α → Option α
  | .ok a => some a
  | _ => none

/-- Wrap a `Nat` into the `u64` range (release-mode `u64` arithmetic). -/
def u64wrap (n : Nat) : Nat := n % 2 ^ 64

/-- Rust `as i64` cast of a `u64` value (two's-complement reinterpretation). -/
def u64toI64 (n : Nat) : Int :=
  let m : Nat := n % 2 ^ 64
  if m < 2 ^ 63 then (m : Int) else (m : Int) - 2 ^ 64

/-- Wrapping `i64` addition (release-mode semantics). -/
def i64add (a b : Int) : Int :=
  let m := (a + b + 2 ^ 63).emod ((2 : Int) ^ 64)
  m - 2 ^ 63

/-- Wrapping `i64` negation (release-mode semantics of unary `-`):
`-i64::MIN` wraps back to `i64::MIN`. -/
def i64neg (a : Int) : Int :=
  let m := (-a + 2 ^ 63).emod ((2 : Int) ^ 64)
  m - 2 ^ 63

/-- Wrapping `u64` addition (release-mode semantics). -/
def u64add (a b : Nat) : Nat := (a + b) % 2 ^ 64

/-- `enum Type` from src/blisp/lexer.rs: the concrete type universe. -/
inductive Ty where
  | int
  | uint
  | float
  | list (t : Ty)
  | tuple (a b : Ty)
  | unit
  | char
  | bool
deriving DecidableEq

/-- `derive(Debug)` rendering of `Type`. -/
def Ty.fmtDebug : Ty → String
  | .int => "Int"
  | .uint => "UInt"
  | .float => "Float"
  | .list t => "List(" ++ t.fmtDebug ++ ")"
  | .tuple a b => "Tuple(" ++ a.fmtDebug ++ ", " ++ b.fmtDebug ++ ")"
  | .unit => "Unit"
  | .char => "Char"
  | .bool => "Bool"

/-- `enum AbstractType` from src/blisp/interpreter.rs. -/
inductive AbstractType where
  | concrete (t : Ty)
  | number
  | negNumber
  | list
deriving DecidableEq

/-- `derive(Debug)` rendering of `AbstractType`. -/
def AbstractType.fmtDebug : AbstractType → String
  | .concrete t => "ConcreteType(" ++ t.fmtDebug ++ ")"
  | .number => "Number"
  | .negNumber => "NegNumber"
  | .list => "List"

/-- `AbstractType::coerce_types` from src/blisp/interpreter.rs (lines 80-149).
The `ty @` bindings in the source bind the *scrutinee* side, which is why some
error messages name the wrong operand; messages are reproduced as written. -/
def coerce_types (first second : AbstractType) : PRes AbstractType :=
  match first with
  | .list =>
      if (match second with | .concrete (.list _) => true | _ => false)
          || second = .list then
        .ok second
      else
        .err ("Unable to coerce list into " ++ first.fmtDebug)
  | .number =>
      if second = .number || second = .negNumber
          || second = .concrete .int || second = .concrete .uint
          || second = .concrete .float then
        .ok second
      else
        .err ("Unable to coerce Number into " ++ first.fmtDebug)
  | .negNumber =>
      if second = .negNumber || second = .concrete .int
          || second = .concrete .float then
        .ok second
      else if second = .number then
        .ok first
      else
        .err ("Unable to coerce NegNumber into " ++ first.fmtDebug)
  | .concrete ct =>
      match second with
      | .concrete ct2 =>
          if ct = ct2 then
            .ok second
          else
            .err ("Unable to coerce " ++ ct.fmtDebug ++ " into " ++ ct2.fmtDebug)
      | .number =>
          if ct = .int || ct = .uint || ct = .float then
            .ok first
          else
            .err ("Unable to coerce Number into " ++ AbstractType.fmtDebug second)
      | .negNumber =>
          if ct = .int || ct = .float then
            .ok first
          else
            .err ("Unable to coerce NegNumber into " ++ AbstractType.fmtDebug second)
      | .list =>
          if (match ct with | .list _ => true | _ => false) then
            .ok first
          else
            .err ("Unable to coerce List into " ++ AbstractType.fmtDebug second)

/-! ## Lexer (src/blisp/lexer.rs) -/

/-- `enum LiteralSuffix`. -/
inductive LiteralSuffix where
  | noSuffix
  | unsigned
  | float
  | char
deriving DecidableEq

/-- `struct NumLiteral`: `int_part`/`dec_part` are `u64` values (modelled as
`Nat`, kept in range by wrapping at the accumulation sites). -/
structure NumLiteral where
  negative : Bool
  int_part : Nat
  float : Bool
  dec_part : Nat
  suffix : LiteralSuffix
deriving DecidableEq

/-- `enum ReservedIdent` (keyword operators). -/
inductive ReservedIdent where
  | add | sub | div | mul
  | write | read
  | ifOp | whileOp
  | eq | neq | leq | geq | lt | gt | andOp | orOp
  | set | init | defOp
  | concat | prepend | take | split
  | evalOp | toString
deriving DecidableEq

/-- `TryFrom<&str> for ReservedIdent`. -/
def reservedFromString (l : List Char) : PRes ReservedIdent :=
  if l = "add".toList then .ok .add
  else if l = "sub".toList then .ok .sub
  else if l = "div".toList then .ok .div
  else if l = "mul".toList then .ok .mul
  else if l = "write".toList then .ok .write
  else if l = "read".toList then .ok .read
  else if l = "if".toList then .ok .ifOp
  else if l = "while".toList then .ok .whileOp
  else if l = "eq".toList then .ok .eq
  else if l = "neq".toList then .ok .neq
  else if l = "leq".toList then .ok .leq
  else if l = "geq".toList then .ok .geq
  else if l = "lt".toList then .ok .lt
  else if l = "gt".toList then .ok .gt
  else if l = "and".toList then .ok .andOp
  else if l = "or".toList then .ok .orOp
  else if l = "set".toList then .ok .set
  else if l = "init".toList then .ok .init
  else if l = "def".toList then .ok .defOp
  else if l = "concat".toList then .ok .concat
  else if l = "prepend".toList then .ok .prepend
  else if l = "take".toList then .ok .take
  else if l = "split".toList then .ok .split
  else if l = "eval".toList then .ok .evalOp
  else if l = "tostring".toList then .ok .toString
  else .err "Not a valid reserved identifier"

/-- Rust `char::is_ascii`. -/
def isAsciiChar (c : Char) : Bool := c.toNat ≤ 127

/-- The pattern `'0'..='9'`. -/
def isDigitChar (c : Char) : Bool := 48 ≤ c.toNat && c.toNat ≤ 57

/-- The pattern `'a'..='z' | 'A'..='Z'`. -/
def isLetterChar (c : Char) : Bool :=
  (97 ≤ c.toNat && c.toNat ≤ 122) || (65 ≤ c.toNat && c.toNat ≤ 90)

/-- Characters accepted inside an identifier scan (letters, digits, `<`, `>`). -/
def isIdentChar (c : Char) : Bool :=
  isLetterChar c || isDigitChar c || c = '<' || c = '>'

/-- The single-quote character, written by code point. -/
def singleQuote : Char := Char.ofNat 39

/-- `TryFrom<&str> for Type` (recursive `list<...>` parsing; the `tuple<...>`
branch is `unimplemented!()` in the source, i.e. a panic). -/
def tyFromString (l : List Char) : PRes Ty :=
  if ¬ l.all isAsciiChar then .err "Unable to convert non-ascii value to Type"
  else if l = "int".toList then .ok .int
  else if l = "uint".toList then .ok .uint
  else if l = "float".toList then .ok .float
  else if l = "unit".toList then .ok .unit
  else if l = "char".toList then .ok .char
  else if l = "bool".toList then .ok .bool
  else if 5 ≤ l.length ∧ l.take 5 = "list<".toList ∧ l.getLast? = some '>' then
    match tyFromString ((l.drop 5).dropLast) with
    | .ok sub => .ok (.list sub)
    | .panic p => .panic p
    | .err _ => .err "Unable to parse subtype of list"
  else if 6 < l.length ∧ l.take 6 = "tuple<".toList ∧ l.getLast? = some '>' then
    .panic "not implemented"
  else .err "Invalid type: \x7bvalue\x7d"
termination_by l.length
decreasing_by
  simp_all
  omega

/-- `enum Token`. -/
inductive Token where
  | numLiteral (n : NumLiteral)
  | charLiteral (c : Nat)
  | unitLiteral
  | stringLiteral (s : String)
  | ident (s : String)
  | tyName (t : Ty)
  | reserved (r : ReservedIdent)
  | lparen
  | rparen
  | lbrack
  | rbrack
  | EOF
deriving DecidableEq

/-- `handle_char_literal`: `input[0]` is the opening quote; the body must be
followed immediately by a closing quote, and the body char is cast `as u8`. -/
def handleCharLiteral (input : List Char) : PRes Nat :=
  match input with
  | _ :: b :: c :: _ =>
      if c ≠ singleQuote then
        .err "Did not find closing \x27 where expected"
      else
        .ok (b.toNat % 256)
  | _ => .err "Reached end of input unexpectedly while parsing a char literal"

/-- The scan loop of `handle_string_literal`: collect chars until a `"`;
`none` models running off the end of input. -/
def stringScan : List Char → Option (List Char)
  | [] => none
  | c :: rest => if c = '"' then some [] else (stringScan rest).map (c :: ·)

/-- `handle_string_literal` (input starts at the opening `"`). -/
def handleStringLiteral (input : List Char) : PRes (List Char) :=
  match stringScan (input.drop 1) with
  | none => .err "Unexpectedly reached end of input while parsing a string literal"
  | some s => .ok s

/-- The scan loop of `handle_identifier`: collect ident chars until a
non-ident char; `none` models running off the end of input. -/
def identScan : List Char → Option (List Char)
  | [] => none
  | c :: rest => if isIdentChar c then (identScan rest).map (c :: ·) else some []

/-- `handle_identifier`: scan, then classify as type name / reserved keyword /
user identifier.  Returns the token and `curr_ident.len() - 1`. -/
def handleIdentifier (input : List Char) : PRes (Token × Nat) :=
  match identScan input with
  | none => .err "Unexpectedly reached end of input while parsing an identifier"
  | some ident =>
      let adj := ident.length - 1
      let forced := ident.any (fun c => c = '<' || c = '>')
      if forced then
        match tyFromString ident with
        | .ok t => .ok (.tyName t, adj)
        | .err e => .err e
        | .panic p => .panic p
      else
        match tyFromString ident with
        | .ok t => .ok (.tyName t, adj)
        | .panic p => .panic p
        | .err _ =>
            match reservedFromString ident with
            | .ok r => .ok (.reserved r, adj)
            | _ => .ok (.ident ⟨ident⟩, adj)

/-- Result of the digit-scanning loop in `handle_num_literal`. -/
structure NumScanRes where
  int_part : Nat
  dec_part : Nat
  float : Bool
  suffix : LiteralSuffix
  consumed : Nat

/-- The scanning loop of `handle_num_literal`: accumulate digits (switching to
the decimal part after a `.`), stop at a suffix char or any other char. -/
def numScan (l : List Char) (float : Bool) (ip dp : Nat) : NumScanRes :=
  match l with
  | [] => ⟨ip, dp, float, .noSuffix, 0⟩
  | c :: rest =>
      if isDigitChar c then
        let r :=
          if float then numScan rest float ip (u64wrap (dp * 10 + (c.toNat - 48)))
          else numScan rest float (u64wrap (ip * 10 + (c.toNat - 48))) dp
        ⟨r.int_part, r.dec_part, r.float, r.suffix, r.consumed + 1⟩
      else if c = '.' then
        let r := numScan rest true ip dp
        ⟨r.int_part, r.dec_part, r.float, r.suffix, r.consumed + 1⟩
      else if c = 'u' then ⟨ip, dp, float, .unsigned, 1⟩
      else if c = 'f' then ⟨ip, dp, float, .float, 1⟩
      else if c = 'c' then ⟨ip, dp, float, .char, 1⟩
      else ⟨ip, dp, float, .noSuffix, 0⟩

/-- `handle_num_literal`: optional leading `-`, a mandatory first digit, then
the scan loop.  Returns the literal and the number of chars consumed. -/
def handleNumLiteral (input : List Char) : PRes (NumLiteral × Nat) :=
  match input with
  | [] => .panic "index out of bounds"
  | c0 :: rest0 =>
      let negative := c0 = '-'
      match (if negative then rest0 else input) with
      | [] => .panic "index out of bounds"
      | c1 :: rest1 =>
          if isDigitChar c1 then
            let r := numScan rest1 false (c1.toNat - 48) 0
            .ok (⟨negative, r.int_part, r.float, r.dec_part, r.suffix⟩,
              (if negative then 2 else 1) + r.consumed)
          else
            .err ("Unexpected char while parsing number: " ++ c1.toString)

/-- The main loop of `tokenize`, as a recursion over the remaining input.
Each branch advances the cursor exactly as the source does. -/
def tokenizeCore (l : List Char) : PRes (List Token) :=
  match l with
  | [] => .ok [.EOF]
  | c :: rest =>
      if c = '+' then (Token.reserved .add :: ·) <$> tokenizeCore rest
      else if c = '/' then (Token.reserved .div :: ·) <$> tokenizeCore rest
      else if c = '*' then (Token.reserved .mul :: ·) <$> tokenizeCore rest
      else if c = '(' then
        match h : rest with
        | [] => .err "Unexpectedly reached end of input"
        | c2 :: rest2 =>
            if c2 = ')' then (Token.unitLiteral :: ·) <$> tokenizeCore rest2
            else (Token.lparen :: ·) <$> tokenizeCore (c2 :: rest2)
      else if c = ')' then (Token.rparen :: ·) <$> tokenizeCore rest
      else if c = '[' then (Token.lbrack :: ·) <$> tokenizeCore rest
      else if c = ']' then (Token.rbrack :: ·) <$> tokenizeCore rest
      else if isDigitChar c then
        match handleNumLiteral (c :: rest) with
        | .ok (lit, count) =>
            (Token.numLiteral lit :: ·) <$> tokenizeCore (rest.drop (count - 1))
        | .err e => .err e
        | .panic p => .panic p
      else if c = singleQuote then
        match handleCharLiteral (c :: rest) with
        | .ok ch => (Token.charLiteral ch :: ·) <$> tokenizeCore (rest.drop 2)
        | .err e => .err e
        | .panic p => .panic p
      else if c = '"' then
        match handleStringLiteral (c :: rest) with
        | .ok s =>
            (Token.stringLiteral ⟨s⟩ :: ·) <$> tokenizeCore (rest.drop (s.length + 1))
        | .err e => .err e
        | .panic p => .panic p
      else if c = '-' then
        match h : rest with
        | [] => .err "Unexpectedly reached end of input"
        | c2 :: rest2 =>
            if c2 = ' ' then (Token.reserved .sub :: ·) <$> tokenizeCore (c2 :: rest2)
            else
              match handleNumLiteral (c :: rest) with
              | .ok (lit, count) =>
                  (Token.numLiteral lit :: ·) <$> tokenizeCore (rest.drop (count - 1))
              | .err e => .err e
              | .panic p => .panic p
      else if isLetterChar c then
        match handleIdentifier (c :: rest) with
        | .ok (tok, adj) => (tok :: ·) <$> tokenizeCore (rest.drop adj)
        | .err e => .err e
        | .panic p => .panic p
      else if c = ' ' then tokenizeCore rest
      else .err ("Haven\x27t implemented the char " ++ c.toString)
termination_by l.length
decreasing_by
  all_goals simp_all [List.length_drop]
  all_goals omega

/-- `tokenize`: filter the input down to ASCII, then run the scan loop (which
appends the terminal EOF token). -/
def tokenize (input : List Char) : PRes (List Token) :=
  tokenizeCore (input.filter isAsciiChar)

/-! ## Parser (src/blisp/parser.rs) -/

/-- `derive(Debug)` rendering of `LiteralSuffix`. -/
def LiteralSuffix.fmtDebug : LiteralSuffix → String
  | .noSuffix => "None"
  | .unsigned => "Unsigned"
  | .float => "Float"
  | .char => "Char"

/-- `derive(Debug)` rendering of `ReservedIdent`. -/
def ReservedIdent.fmtDebug : ReservedIdent → String
  | .add => "Add" | .sub => "Sub" | .div => "Div" | .mul => "Mul"
  | .write => "Write" | .read => "Read"
  | .ifOp => "If" | .whileOp => "While"
  | .eq => "Eq" | .neq => "Neq" | .leq => "Leq" | .geq => "Geq"
  | .lt => "Lt" | .gt => "Gt" | .andOp => "And" | .orOp => "Or"
  | .set => "Set" | .init => "Init" | .defOp => "Def"
  | .concat => "Concat" | .prepend => "Prepend" | .take => "Take"
  | .split => "Split" | .evalOp => "Eval" | .toString => "ToString"

/-- `derive(Debug)` rendering of `NumLiteral`. -/
def NumLiteral.fmtDebug (n : NumLiteral) : String :=
  "NumLiteral \x7b negative: " ++ (toString n.negative) ++
    ", int_part: " ++ (toString n.int_part) ++
    ", float: " ++ (toString n.float) ++
    ", dec_part: " ++ (toString n.dec_part) ++
    ", suffix: " ++ n.suffix.fmtDebug ++ " \x7d"

/-- `derive(Debug)` rendering of `Token`. -/
def Token.fmtDebug : Token → String
  | .numLiteral n => "NumLiteral(" ++ n.fmtDebug ++ ")"
  | .charLiteral c => "CharLiteral(" ++ toString c ++ ")"
  | .unitLiteral => "UnitLiteral"
  | .stringLiteral s => "StringLiteral(\"" ++ s ++ "\")"
  | .ident s => "Ident(\"" ++ s ++ "\")"
  | .tyName t => "Type(" ++ t.fmtDebug ++ ")"
  | .reserved r => "Reserved(" ++ r.fmtDebug ++ ")"
  | .lparen => "LParen"
  | .rparen => "RParen"
  | .lbrack => "LBrack"
  | .rbrack => "RBrack"
  | .EOF => "EOF"

/-- `enum Rule`: the grammar productions. -/
inductive Rule where
  | Prog | Expr | ExprBody | Val | List | ListBody | FuncCall | Args
deriving DecidableEq

/-- `enum Node`: a leaf wrapping a token, or a rule node with its ordered
children (`RuleNodeData` is flattened; the `Rc` wrappers of the source are
irrelevant to the pure tree structure). -/
inductive Node where
  | leaf (t : Token)
  | rule (r : Rule) (children : List Node)

/-- The `val_tokens_pat!()` macro: tokens that can start a `Val`. -/
def isValToken : Token → Bool
  | .lbrack | .lparen | .ident _ | .tyName _ | .charLiteral _
  | .stringLiteral _ | .numLiteral _ | .unitLiteral => true
  | _ => false

/-- `tokens[i]`: direct slice indexing, a panic when out of bounds. -/
def idxTok (ts : List Token) (i : Nat) : PRes Token :=
  match ts.get? i with
  | some t => .ok t
  | none => .panic "index out of bounds"

mutual

/-- `parse_expr`: `'(' ExprBody ')'`.  `tokens[0]` / `tokens[cnt+1]` are
direct indexings (panics when out of bounds, as in the source). -/
def parse_expr (tokens : List Token) : PRes (Node × Nat) :=
  match tokens with
  | [] => .panic "index out of bounds"
  | t0 :: restT =>
      if t0 = .lparen then do
        let (child, cnt) ← parse_expr_body restT
        let node := Node.rule .Expr [Node.leaf .lparen, child, Node.leaf .rparen]
        let t1 ← idxTok tokens (cnt + 1)
        if t1 = .rparen then
          .ok (node, cnt + 2)
        else
          .err ("Expected ) while parsing expression, encountered " ++ t1.fmtDebug)
      else
        .err ("Expected ( while parsing expression, encountered " ++ t0.fmtDebug)
termination_by (tokens.length, 0)

/-- `parse_expr_body`: dispatch on `tokens[0]` to `FuncCall` or `Val`. -/
def parse_expr_body (tokens : List Token) : PRes (Node × Nat) :=
  match tokens with
  | [] => .panic "index out of bounds"
  | t0 :: restT =>
      match t0 with
      | .reserved _ => do
          let (child, cnt) ← parse_func_call (t0 :: restT)
          .ok (Node.rule .ExprBody [child], cnt)
      | _ =>
          if isValToken t0 then do
            let (child, cnt) ← parse_val (t0 :: restT)
            .ok (Node.rule .ExprBody [child], cnt)
          else
            .err ("Unexpected token encountered while parsing expression body: "
              ++ t0.fmtDebug)
termination_by (tokens.length, 2)

/-- `parse_func_call`: `tokens[0].assert_reserved()?`, then the arguments. -/
def parse_func_call (tokens : List Token) : PRes (Node × Nat) :=
  match tokens with
  | [] => .panic "index out of bounds"
  | t0 :: restT =>
      match t0 with
      | .reserved func => do
          let (child, cnt) ← parse_args restT
          .ok (Node.rule .FuncCall [Node.leaf (.reserved func), child], cnt + 1)
      | t => .err ("Assertion failed, self: " ++ t.fmtDebug)
termination_by (tokens.length, 0)

/-- `parse_args`: one `Val`, then either the terminal state (next token is
`)`) or a recursive tail.  NOTE: the source recurses on `&tokens[1..]`, not
on `&tokens[val_cnt..]`; this embedding reproduces that faithfully. -/
def parse_args (tokens : List Token) : PRes (Node × Nat) :=
  match tokens with
  | [] => .panic "index out of bounds"
  | t0 :: restT =>
      if isValToken t0 then do
        let (val, val_cnt) ← parse_val (t0 :: restT)
        match tokens.get? val_cnt with
        | none => .err "Unexpectedly reached end of input while trying to parse arguments"
        | some t =>
            if t = .rparen then
              .ok (Node.rule .Args [val], val_cnt)
            else do
              let (tail, tail_cnt) ← parse_args restT
              .ok (Node.rule .Args [val, tail], val_cnt + tail_cnt)
      else
        .err ("Unexpected token encountered while parsing expression body: "
          ++ t0.fmtDebug)
termination_by (tokens.length, 2)

/-- `parse_val`: list, parenthesized expression, or a terminal token. -/
def parse_val (tokens : List Token) : PRes (Node × Nat) :=
  match tokens with
  | [] => .panic "index out of bounds"
  | t0 :: restT =>
      match t0 with
      | .lbrack => do
          let (child, cnt) ← parse_list (t0 :: restT)
          .ok (Node.rule .Val [child], cnt)
      | .lparen => do
          let (child, cnt) ← parse_expr (t0 :: restT)
          .ok (Node.rule .Val [child], cnt)
      | _ =>
          if isValToken t0 then
            .ok (Node.rule .Val [Node.leaf t0], 1)
          else
            .err ("Unexpected token while parsing value: " ++ t0.fmtDebug)
termination_by (tokens.length, 1)

/-- `parse_list`: `'[' ListBody ']'`. -/
def parse_list (tokens : List Token) : PRes (Node × Nat) :=
  match tokens with
  | [] => .panic "index out of bounds"
  | t0 :: restT =>
      if t0 = .lbrack then do
        let (child, cnt) ← parse_list_body restT
        let node := Node.rule .List [Node.leaf .lbrack, child, Node.leaf .rbrack]
        let t1 ← idxTok tokens (cnt + 1)
        if t1 = .rbrack then
          .ok (node, cnt + 2)
        else
          .err ("Expected ] while parsing list, encountered " ++ t1.fmtDebug)
      else
        .err ("Expected [ while parsing list, encountered " ++ t0.fmtDebug)
termination_by (tokens.length, 0)

/-- `parse_list_body`: like `parse_args` with `]` as the terminal lookahead
(and the same `&tokens[1..]` recursion as the source). -/
def parse_list_body (tokens : List Token) : PRes (Node × Nat) :=
  match tokens with
  | [] => .panic "index out of bounds"
  | t0 :: restT =>
      if isValToken t0 then do
        let (val, val_cnt) ← parse_val (t0 :: restT)
        match tokens.get? val_cnt with
        | none => .err "Unexpectedly reached end of input while trying to parse list"
        | some t =>
            if t = .rbrack then
              .ok (Node.rule .ListBody [val], val_cnt)
            else do
              let (tail, tail_cnt) ← parse_list_body restT
              .ok (Node.rule .ListBody [val, tail], val_cnt + tail_cnt)
      else
        .err ("Unexpected token encountered while parsing expression body: "
          ++ t0.fmtDebug)
termination_by (tokens.length, 2)

end

/-- `parse_prog`: parse an `Expr`, then require the token at the returned
count to be the terminal EOF. -/
def parse_prog (tokens : List Token) : PRes (Node × Nat) := do
  let (child, cnt) ← parse_expr tokens
  let node := Node.rule .Prog [child]
  match tokens.get? cnt with
  | none => .err "Unexpected end of token stream before EOF"
  | some t =>
      if t ≠ .EOF then
        .err ("Unexpected token where EOF was expected: " ++ t.fmtDebug)
      else
        .ok (node, cnt)

/-! ## Interpreter (src/blisp/interpreter.rs, src/blisp/functions.rs) -/

/-- `derive(Debug)` rendering of `Rule`. -/
def Rule.fmtDebug : Rule → String
  | .Prog => "Prog"
  | .Expr => "Expr"
  | .ExprBody => "ExprBody"
  | .Val => "Val"
  | .List => "List"
  | .ListBody => "ListBody"
  | .FuncCall => "FuncCall"
  | .Args => "Args"

mutual

/-- `derive(Debug)` rendering of `Node`. -/
def Node.fmtDebug : Node → String
  | .leaf t => "Leaf(" ++ t.fmtDebug ++ ")"
  | .rule r children =>
      "Rule(RuleNodeData \x7b rule: " ++ r.fmtDebug ++ ", children: [" ++
        Node.fmtDebugList children ++ "] \x7d)"

def Node.fmtDebugList : List Node → String
  | [] => ""
  | [n] => n.fmtDebug
  | n :: rest => n.fmtDebug ++ ", " ++ Node.fmtDebugList rest

end

/-- Number of decimal digits of a `Nat` (1 for 0); fuel-structured so it
reduces in the kernel. -/
def digitCountAux : Nat → Nat → Nat
  | _, 0 => 1
  | n, fuel + 1 => if n < 10 then 1 else digitCountAux (n / 10) fuel + 1

def digitCount (n : Nat) : Nat := digitCountAux n n

/-- Model of `f64` as an exact unnormalized fraction.  The programs exercised
here only produce small dyadic values, on which IEEE-754 double arithmetic is
exact, so exact fractions are a faithful model of those computations. -/
structure F64 where
  num : Int
  den : Nat
deriving DecidableEq

/-- Exact `f64` addition. -/
def F64.add (a b : F64) : F64 :=
  ⟨a.num * b.den + b.num * a.den, a.den * b.den⟩

/-- `u64 as f64` / `i64 as f64` style casts (exact below 2^53). -/
def F64.ofInt (n : Int) : F64 := ⟨n, 1⟩

def F64.fmtDebug (f : F64) : String := toString f.num ++ "/" ++ toString f.den

/-- Modelled from the spec: `NumLiteral::to_f64_checked` is absent from the
src snapshot (only its callers and tests remain).  Spec §3 stores `dec_part`
literally and §9 notes the scaling must track the digit count; the repository
tests pin `new_float(1,5,false) ↦ 1.5` and `new_int_with_suffix(1,true,'f') ↦ -1.0`,
giving `±(int_part + dec_part / 10^(digits of dec_part))`. -/
def to_f64_checked (n : NumLiteral) : PRes F64 :=
  let pow : Nat := 10 ^ digitCount n.dec_part
  let mag : F64 := ⟨n.int_part * pow + n.dec_part, pow⟩
  .ok (if n.negative then ⟨-mag.num, mag.den⟩ else mag)

mutual

/-- `enum ValueData`. -/
inductive ValueData where
  | int (n : Int)
  | uint (n : Nat)
  | float (f : F64)
  | list (vs : List Value)
  | unit
  | char (c : Nat)
  | bool (b : Bool)
  | number (n : Nat)
  | negNumber (n : Int)

/-- `struct Value`: an abstract type tag plus a payload. -/
inductive Value where
  | mk (ty : AbstractType) (val : ValueData)

end

def Value.ty : Value → AbstractType
  | .mk t _ => t

def Value.val : Value → ValueData
  | .mk _ v => v

mutual

/-- `derive(Debug)` rendering of `ValueData`. -/
def ValueData.fmtDebug : ValueData → String
  | .int n => "Int(" ++ toString n ++ ")"
  | .uint n => "UInt(" ++ toString n ++ ")"
  | .float f => "Float(" ++ f.fmtDebug ++ ")"
  | .list vs => "List([" ++ ValueData.fmtDebugList vs ++ "])"
  | .unit => "Unit"
  | .char c => "Char(" ++ toString c ++ ")"
  | .bool b => "Bool(" ++ toString b ++ ")"
  | .number n => "Number(" ++ toString n ++ ")"
  | .negNumber n => "NegNumber(" ++ toString n ++ ")"

/-- `derive(Debug)` rendering of `Value`. -/
def Value.fmtDebug : Value → String
  | .mk t v => "Value \x7b ty: " ++ t.fmtDebug ++ ", val: " ++ v.fmtDebug ++ " \x7d"

def ValueData.fmtDebugList : List Value → String
  | [] => ""
  | [v] => v.fmtDebug
  | v :: rest => v.fmtDebug ++ ", " ++ ValueData.fmtDebugList rest

end

/-- `From<u8> for Value`. -/
def Value.ofChar (c : Nat) : Value := .mk (.concrete .char) (.char c)

/-- `From<f64> for Value`. -/
def Value.ofF64 (f : F64) : Value := .mk (.concrete .float) (.float f)

/-- `From<String> for Value`: a `list<char>` of the bytes. -/
def Value.ofString (s : String) : Value :=
  .mk (.concrete (.list .char)) (.list (s.data.map (fun c => Value.ofChar (c.toNat % 256))))

/-- `From<()> for Value`. -/
def Value.ofUnit : Value := .mk (.concrete .unit) .unit

/-- `Value::try_as_number` (only `Number` payloads). -/
def Value.try_as_number (v : Value) : PRes Nat :=
  match v.val with
  | .number n => .ok n
  | _ => .err ("Tried to convert non-number value to number: " ++ v.fmtDebug)

/-- `Value::try_as_negnumber` (`Number` cast `as i64`, or `NegNumber`). -/
def Value.try_as_negnumber (v : Value) : PRes Int :=
  match v.val with
  | .number n => .ok (u64toI64 n)
  | .negNumber n => .ok n
  | _ => .err ("Tried to convert invalid value to negnumber: " ++ v.fmtDebug)

/-- `Value::try_as_int`. -/
def Value.try_as_int (v : Value) : PRes Int :=
  match v.val with
  | .number n => .ok (u64toI64 n)
  | .negNumber n => .ok n
  | .int n => .ok n
  | _ => .err ("Tried to convert invalid value to int: " ++ v.fmtDebug)

/-- `Value::try_as_uint`. -/
def Value.try_as_uint (v : Value) : PRes Nat :=
  match v.val with
  | .number n => .ok n
  | .uint n => .ok n
  | _ => .err ("Tried to convert invalid value to uint: " ++ v.fmtDebug)

/-- `Value::try_as_float` (`Number`/`NegNumber` cast `as f64`, or `Float`). -/
def Value.try_as_float (v : Value) : PRes F64 :=
  match v.val with
  | .number n => .ok (F64.ofInt n)
  | .negNumber n => .ok (F64.ofInt n)
  | .float f => .ok f
  | _ => .err ("Tried to convert invalid value to float: " ++ v.fmtDebug)

/-- `TryFrom<NumLiteral> for Value`: the literal resolution table. -/
def valueOfNumLiteral (value : NumLiteral) : PRes Value :=
  match value.suffix with
  | .noSuffix =>
      if value.float then
        (to_f64_checked value).bind (fun q => .ok (Value.ofF64 q))
      else if value.negative then
        .ok (.mk .negNumber (.negNumber (i64neg (u64toI64 value.int_part))))
      else
        .ok (.mk .number (.number value.int_part))
  | .char =>
      if value.float || value.negative || decide (255 < value.int_part) then
        .err ("Unable to process NumLiteral with Char suffix: " ++ value.fmtDebug)
      else
        .ok (.mk (.concrete .char) (.char (value.int_part % 256)))
  | .float => (to_f64_checked value).bind (fun q => .ok (Value.ofF64 q))
  | .unsigned =>
      if value.float || value.negative then
        .err ("Unable to process NumLiteral with Unsigned suffix: " ++ value.fmtDebug)
      else
        .ok (.mk (.concrete .uint) (.uint value.int_part))

/-- `enum ArgumentType`. -/
inductive ArgumentType where
  | value
  | type
  | ident
deriving DecidableEq

/-- `enum Argument`. -/
inductive Argument where
  | value (v : Value)
  | type (t : Ty)
  | ident (s : String)

/-- `Argument::get_type`. -/
def Argument.get_type : Argument → ArgumentType
  | .value _ => .value
  | .type _ => .type
  | .ident _ => .ident

def Argument.fmtDebug : Argument → String
  | .value v => "Value(" ++ v.fmtDebug ++ ")"
  | .type t => "Type(" ++ t.fmtDebug ++ ")"
  | .ident s => "Ident(\"" ++ s ++ "\")"

/-- `Argument::try_get_val`. -/
def Argument.try_get_val (a : Argument) : PRes Value :=
  match a with
  | .value v => .ok v
  | _ => .err ("Attempted to get Value from non-Value argument " ++ a.fmtDebug)

/-- `Argument::try_get_val_type`. -/
def Argument.try_get_val_type (a : Argument) : PRes AbstractType :=
  (a.try_get_val).bind (fun v =>
    match v.ty with
    | .concrete ct => .ok (.concrete ct)
    | .list =>
        .err ("Unexpectedly found abstract list type when parsing argument "
          ++ a.fmtDebug)
    | t => .ok t)

/-- `struct State`: the variable environment, a map from identifier to
`Option<Value>` (`HashMap` modelled as an association list keyed on the
identifier, with at most one entry per key). -/
structure State where
  vars : List (String × Option Value)

/-- `State::new`. -/
def State.new : State := ⟨[]⟩

def State.lookupVar (s : State) (ident : String) : Option (Option Value) :=
  (s.vars.find? (fun p => p.1 = ident)).map (fun p => p.2)

def State.containsVar (s : State) (ident : String) : Bool :=
  s.vars.any (fun p => p.1 = ident)

/-- `State::get_var`: distinct errors for a name never created vs created
but unset. -/
def State.get_var (s : State) (ident : String) : PRes Value :=
  match s.lookupVar ident with
  | none => .err ("Variable has not been initialized at all: " ++ ident)
  | some none => .err "Variable has been initialized but not set"
  | some (some v) => .ok v

/-- `State::create_var` (`&mut self`: returns the result together with the
possibly-updated state; an occupied entry is an error and leaves the map
untouched). -/
def State.create_var (s : State) (ident : String) (val : Option Value) :
    PRes Unit × State :=
  if s.containsVar ident then
    (.err ("Already have a variable called: " ++ ident), s)
  else
    (.ok (), ⟨s.vars ++ [(ident, val)]⟩)

/-- `State::set_var` (`&mut self`): a vacant entry is an error and adds no
binding. -/
def State.set_var (s : State) (ident : String) (val : Value) :
    PRes Unit × State :=
  if s.containsVar ident then
    (.ok (), ⟨s.vars.map (fun p => if p.1 = ident then (p.1, some val) else p)⟩)
  else
    (.err ("No variable exists with identifier " ++ ident), s)

/-- `get_arg_types` (src/blisp/functions.rs lines 26-56): the fixed
arity/kind table per reserved operator.  The source's exhaustive match has no
`Split` arm (it compiles against a `ReservedIdent` revision without `Split`);
it is placed in the binary-value bucket here, a choice none of the theorems
below depends on. -/
def get_arg_types (func : ReservedIdent) : List ArgumentType :=
  match func with
  | .add | .sub | .div | .mul | .eq | .neq | .leq | .geq | .lt | .gt
  | .andOp | .concat | .whileOp | .orOp | .take | .prepend | .split =>
      [.value, .value]
  | .write | .read | .evalOp | .toString => [.value]
  | .set | .defOp => [.ident, .value]
  | .init => [.ident, .type]
  | .ifOp => [.value, .value, .value]

/-- `eval_add` (src/blisp/functions.rs lines 73-115): pop the two arguments
(`arg1` is the second one textually), coerce the types, then dispatch on the
resolved type to the native numeric addition. -/
def eval_add (args : List Argument) : PRes Value :=
  match args with
  | [arg2, arg1] =>
      (arg1.try_get_val_type).bind fun t1 =>
      (arg2.try_get_val_type).bind fun t2 =>
      (coerce_types t1 t2).bind fun ty =>
      (arg1.try_get_val).bind fun val1 =>
      (arg2.try_get_val).bind fun val2 =>
      match ty with
      | .number =>
          (val1.try_as_number).bind fun a =>
          (val2.try_as_number).bind fun b =>
          .ok (.mk .number (.number (u64add a b)))
      | .negNumber =>
          (val1.try_as_negnumber).bind fun a =>
          (val2.try_as_negnumber).bind fun b =>
          .ok (.mk .negNumber (.negNumber (i64add a b)))
      | .list =>
          .err "Unexpectedly encountered AbstractType::List in eval step: List"
      | .concrete ct =>
          match ct with
          | .int =>
              (val1.try_as_int).bind fun a =>
              (val2.try_as_int).bind fun b =>
              .ok (.mk (.concrete .int) (.int (i64add a b)))
          | .uint =>
              (val1.try_as_uint).bind fun a =>
              (val2.try_as_uint).bind fun b =>
              .ok (.mk (.concrete .uint) (.uint (u64add a b)))
          | .float =>
              (val1.try_as_float).bind fun a =>
              (val2.try_as_float).bind fun b =>
              .ok (.mk (.concrete .float) (.float (F64.add a b)))
          | .unit => .ok (.mk (.concrete .unit) .unit)
          | .list _ => .panic "not implemented"
          | _ => .err ("Unable to add values of type " ++ ct.fmtDebug)
  | _ => .panic "assertion failed"

/-- `eval_function` (src/blisp/functions.rs lines 14-24): `assert_eq!` the
argument kinds against the table (a panic on mismatch), then dispatch; every
operator except `add` is `unimplemented!()` (a panic). -/
def eval_function (func : ReservedIdent) (args : List Argument) : PRes Value :=
  if args.map Argument.get_type = get_arg_types func then
    match func with
    | .add => eval_add args
    | _ => .panic "not implemented"
  else
    .panic "assertion failed"

/-- The fold `vec.iter().map(|v| v.ty.clone()).try_fold(init, coerce_types)`
inside `check_list_type`. -/
def tryFoldCoerce (acc : AbstractType) : List AbstractType → PRes AbstractType
  | [] => .ok acc
  | t :: ts => (coerce_types acc t).bind (fun acc2 => tryFoldCoerce acc2 ts)

mutual

/-- `check_list_type` (src/blisp/interpreter.rs lines 671-728): fold
`coerce_types` over all element types; a remaining `Number`/`NegNumber`
resolves to `Int`; an abstract `List` result recursively types the head's
元素 list (`vec[0]` panics on an empty vector, as in the source). -/
def check_list_type (vec : List Value) : PRes Ty :=
  match vec with
  | [] => .panic "index out of bounds"
  | init :: rest =>
      match tryFoldCoerce init.ty ((init :: rest).map Value.ty) with
      | .err e => .err e
      | .panic p => .panic p
      | .ok ty =>
          match ty with
          | .number => .ok .int
          | .negNumber => .ok .int
          | .concrete ct => .ok ct
          | .list =>
              match init with
              | .mk _ (.list vals) =>
                  match check_list_type vals with
                  | .err e => .err e
                  | .panic p => .panic p
                  | .ok initTy =>
                      match checkSubFold vals (.concrete initTy) (init :: rest) with
                      | .err e => .err e
                      | .panic p => .panic p
                      | .ok ty2 =>
                          match ty2 with
                          | .concrete ct => .ok ct
                          | _ =>
                              .err ("Unable to find a concrete type for the list, found type: "
                                ++ ty2.fmtDebug)
              | _ =>
                  .err ("Got List as type of the list but initial value is not a list: "
                    ++ init.fmtDebug)

/-- The inner fold of `check_list_type` over sublists: each element must be a
list (else `panic!`), is mapped to `ConcreteType(check_list_type(vals))` —
`vals` being the *head's* elements, as in the source — with `.expect` (a
panic) on failure, and folded with `coerce_types`. -/
def checkSubFold (vals : List Value) (acc : AbstractType) :
    List Value → PRes AbstractType
  | [] => .ok acc
  | v :: rest =>
      match v with
      | .mk _ (.list _) =>
          match check_list_type vals with
          | .ok t =>
              match coerce_types acc (.concrete t) with
              | .ok acc2 => checkSubFold vals acc2 rest
              | .err e => .err e
              | .panic p => .panic p
          | _ => .panic "Something went wrong when parsing sublist types"
      | _ => .panic "Something went wrong when parsing sublist types"

end

mutual

/-- `eval_prog_node`. -/
def eval_prog_node (node : Node) (state : State) : PRes Value :=
  match node with
  | .rule .Prog children =>
      match children with
      | [c] => eval_expr_node c state
      | _ => .panic "assertion failed"
  | _ => .err ("Expected Prog node, found: " ++ node.fmtDebug)

/-- `eval_expr_node`. -/
def eval_expr_node (node : Node) (state : State) : PRes Value :=
  match node with
  | .rule .Expr children =>
      match children with
      | [c] => eval_expr_body_node c state
      | _ => .panic "assertion failed"
  | _ => .err ("Expected Expr node, found: " ++ node.fmtDebug)

/-- `eval_expr_body_node`. -/
def eval_expr_body_node (node : Node) (state : State) : PRes Value :=
  match node with
  | .rule .ExprBody children =>
      match children with
      | [c] =>
          match c with
          | .rule .Val cs => eval_val_node (.rule .Val cs) state
          | .rule .FuncCall cs => eval_func_call_node (.rule .FuncCall cs) state
          | _ =>
              .err ("Encountered unexpected node when evaluating expression body: "
                ++ c.fmtDebug)
      | _ => .panic "assertion failed"
  | _ => .err ("Expected ExprBody node, found: " ++ node.fmtDebug)

/-- `eval_val_node`: literals map directly, identifiers resolve through the
state, lists and nested expressions recurse. -/
def eval_val_node (node : Node) (state : State) : PRes Value :=
  match node with
  | .rule .Val children =>
      match children with
      | [c] =>
          match c with
          | .leaf (.charLiteral ch) => .ok (Value.ofChar ch)
          | .leaf (.stringLiteral s) => .ok (Value.ofString s)
          | .leaf (.numLiteral n) => valueOfNumLiteral n
          | .leaf .unitLiteral => .ok Value.ofUnit
          | .leaf (.ident i) => state.get_var i
          | .rule .List cs => eval_list_node (.rule .List cs) state
          | .rule .Expr cs => eval_expr_node (.rule .Expr cs) state
          | n => .err ("Encountered invalid node when evaluating Val: " ++ n.fmtDebug)
      | _ => .panic "assertion failed"
  | _ => .err ("Expected Val node, found: " ++ node.fmtDebug)

/-- `eval_func_call_node`. -/
def eval_func_call_node (node : Node) (state : State) : PRes Value :=
  match node with
  | .rule .FuncCall children =>
      match children with
      | [f, argsN] =>
          match f with
          | .leaf (.reserved rsv) =>
              (eval_args_node argsN state).bind (fun args => eval_function rsv args)
          | n => .err ("Expected function name, found " ++ n.fmtDebug)
      | _ => .panic "assertion failed"
  | _ => .err ("Expected FuncCall node, found: " ++ node.fmtDebug)

/-- `eval_args_node`: linearize the right-leaning `Args` spine (the tail is
evaluated before the head value, as the source pops the tail first). -/
def eval_args_node (node : Node) (state : State) : PRes (List Argument) :=
  match node with
  | .rule .Args children =>
      match children with
      | [c] =>
          match c with
          | .rule .Val cs =>
              (eval_val_node (.rule .Val cs) state).bind
                (fun v => .ok [Argument.value v])
          | n => .err ("Expected Val while parsing ListBody, found: " ++ n.fmtDebug)
      | [c1, c2] =>
          (eval_args_node c2 state).bind fun tail =>
          (eval_val_node c1 state).bind fun v =>
          .ok (Argument.value v :: tail)
      | _ => .panic "assertion failed"
  | _ => .err ("Expected ListBody node, found: " ++ node.fmtDebug)

/-- `eval_list_node`: evaluate the body, then resolve one concrete element
type via `check_list_type`. -/
def eval_list_node (node : Node) (state : State) : PRes Value :=
  match node with
  | .rule .List children =>
      match children with
      | [c] =>
          (eval_list_body_node c state).bind fun lv =>
            match lv with
            | .mk _ (.list vals) =>
                (check_list_type vals).bind fun ty =>
                  .ok (.mk (.concrete (.list ty)) (.list vals))
            | _ => .err "Malformed ListBody result"
      | _ => .panic "assertion failed"
  | _ => .err ("Expected Args node, found: " ++ node.fmtDebug)

/-- `eval_list_body_node` (`list_value_helper!` wraps values in an abstract
`List`-typed `Value`, per its use sites). -/
def eval_list_body_node (node : Node) (state : State) : PRes Value :=
  match node with
  | .rule .ListBody children =>
      match children with
      | [c] =>
          match c with
          | .rule .Val cs =>
              (eval_val_node (.rule .Val cs) state).bind
                (fun v => .ok (.mk .list (.list [v])))
          | n => .err ("Expected Val while parsing ListBody, found: " ++ n.fmtDebug)
      | [c1, c2] =>
          (eval_list_body_node c2 state).bind fun tail =>
          (eval_val_node c1 state).bind fun v =>
          match tail with
          | .mk _ (.list vec) => .ok (.mk .list (.list (v :: vec)))
          | _ => .err ("Malformed ListBody result: " ++ tail.fmtDebug)
      | _ => .panic "assertion failed"
  | _ => .err ("Expected ListBody node, found: " ++ node.fmtDebug)

end

/-- `eval`: a fresh `State` per top-level evaluation. -/
def eval (node : Node) : PRes Value :=
  eval_prog_node node State.new

/-!
Modelled from the spec: the parser revision that `interpreter.rs` compiles
against is not in the src snapshot — `interpreter.rs` imports `ParseToken`
(absent from the snapshot's `parser.rs`) and its evaluators assert that
`Expr` and `List` rule nodes carry exactly one child, while the snapshot's
`parser.rs` emits three (with delimiter leaves).  The functions below follow
the spec's grammar (§4.2) and the snapshot parser's control flow, but emit
the single-semantic-child nodes the interpreter expects (matching the
`rule_node_helper`/`prog_node_helper` shapes in `macros.rs`).  Per the spec's
right-recursive `Args`/`ListBody` productions, the tail here continues at the
position after the parsed value (`restT.drop (val_cnt - 1)`), unlike the
snapshot parser's `&tokens[1..]` recursion, which is embedded as-is above.
-/

mutual

/-- Modelled from the spec: pipeline `Expr := '(' ExprBody ')'` emitting a
single-child `Expr` node. -/
def parse2_expr (tokens : List Token) : PRes (Node × Nat) :=
  match tokens with
  | [] => .panic "index out of bounds"
  | t0 :: restT =>
      if t0 = .lparen then do
        let (child, cnt) ← parse2_expr_body restT
        let node := Node.rule .Expr [child]
        let t1 ← idxTok tokens (cnt + 1)
        if t1 = .rparen then
          .ok (node, cnt + 2)
        else
          .err ("Expected ) while parsing expression, encountered " ++ t1.fmtDebug)
      else
        .err ("Expected ( while parsing expression, encountered " ++ t0.fmtDebug)
termination_by (tokens.length, 0)

/-- Modelled from the spec: pipeline `ExprBody := FuncCall | Val`. -/
def parse2_expr_body (tokens : List Token) : PRes (Node × Nat) :=
  match tokens with
  | [] => .panic "index out of bounds"
  | t0 :: restT =>
      match t0 with
      | .reserved _ => do
          let (child, cnt) ← parse2_func_call (t0 :: restT)
          .ok (Node.rule .ExprBody [child], cnt)
      | _ =>
          if isValToken t0 then do
            let (child, cnt) ← parse2_val (t0 :: restT)
            .ok (Node.rule .ExprBody [child], cnt)
          else
            .err ("Unexpected token encountered while parsing expression body: "
              ++ t0.fmtDebug)
termination_by (tokens.length, 2)

/-- Modelled from the spec: pipeline `FuncCall := ReservedOp Args`. -/
def parse2_func_call (tokens : List Token) : PRes (Node × Nat) :=
  match tokens with
  | [] => .panic "index out of bounds"
  | t0 :: restT =>
      match t0 with
      | .reserved func => do
          let (child, cnt) ← parse2_args restT
          .ok (Node.rule .FuncCall [Node.leaf (.reserved func), child], cnt + 1)
      | t => .err ("Assertion failed, self: " ++ t.fmtDebug)
termination_by (tokens.length, 0)

/-- Modelled from the spec: pipeline `Args := Val | Val Args` (terminal when
the next token is `)`). -/
def parse2_args (tokens : List Token) : PRes (Node × Nat) :=
  match tokens with
  | [] => .panic "index out of bounds"
  | t0 :: restT =>
      if isValToken t0 then do
        let (val, val_cnt) ← parse2_val (t0 :: restT)
        match tokens.get? val_cnt with
        | none => .err "Unexpectedly reached end of input while trying to parse arguments"
        | some t =>
            if t = .rparen then
              .ok (Node.rule .Args [val], val_cnt)
            else do
              let (tail, tail_cnt) ← parse2_args (restT.drop (val_cnt - 1))
              .ok (Node.rule .Args [val, tail], val_cnt + tail_cnt)
      else
        .err ("Unexpected token encountered while parsing expression body: "
          ++ t0.fmtDebug)
termination_by (tokens.length, 2)

/-- Modelled from the spec: pipeline `Val := List | Expr | terminal`. -/
def parse2_val (tokens : List Token) : PRes (Node × Nat) :=
  match tokens with
  | [] => .panic "index out of bounds"
  | t0 :: restT =>
      match t0 with
      | .lbrack => do
          let (child, cnt) ← parse2_list (t0 :: restT)
          .ok (Node.rule .Val [child], cnt)
      | .lparen => do
          let (child, cnt) ← parse2_expr (t0 :: restT)
          .ok (Node.rule .Val [child], cnt)
      | _ =>
          if isValToken t0 then
            .ok (Node.rule .Val [Node.leaf t0], 1)
          else
            .err ("Unexpected token while parsing value: " ++ t0.fmtDebug)
termination_by (tokens.length, 1)

/-- Modelled from the spec: pipeline `List := '[' ListBody ']'` emitting a
single-child `List` node. -/
def parse2_list (tokens : List Token) : PRes (Node × Nat) :=
  match tokens with
  | [] => .panic "index out of bounds"
  | t0 :: restT =>
      if t0 = .lbrack then do
        let (child, cnt) ← parse2_list_body restT
        let node := Node.rule .List [child]
        let t1 ← idxTok tokens (cnt + 1)
        if t1 = .rbrack then
          .ok (node, cnt + 2)
        else
          .err ("Expected ] while parsing list, encountered " ++ t1.fmtDebug)
      else
        .err ("Expected [ while parsing list, encountered " ++ t0.fmtDebug)
termination_by (tokens.length, 0)

/-- Modelled from the spec: pipeline `ListBody := Val | Val ListBody`
(terminal when the next token is `]`). -/
def parse2_list_body (tokens : List Token) : PRes (Node × Nat) :=
  match tokens with
  | [] => .panic "index out of bounds"
  | t0 :: restT =>
      if isValToken t0 then do
        let (val, val_cnt) ← parse2_val (t0 :: restT)
        match tokens.get? val_cnt with
        | none => .err "Unexpectedly reached end of input while trying to parse list"
        | some t =>
            if t = .rbrack then
              .ok (Node.rule .ListBody [val], val_cnt)
            else do
              let (tail, tail_cnt) ← parse2_list_body (restT.drop (val_cnt - 1))
              .ok (Node.rule .ListBody [val, tail], val_cnt + tail_cnt)
      else
        .err ("Unexpected token encountered while parsing expression body: "
          ++ t0.fmtDebug)
termination_by (tokens.length, 2)

end

/-- Modelled from the spec: pipeline `Prog := Expr EOF`. -/
def parse2_prog (tokens : List Token) : PRes (Node × Nat) := do
  let (child, cnt) ← parse2_expr tokens
  let node := Node.rule .Prog [child]
  match tokens.get? cnt with
  | none => .err "Unexpected end of token stream before EOF"
  | some t =>
      if t ≠ .EOF then
        .err ("Unexpected token where EOF was expected: " ++ t.fmtDebug)
      else
        .ok (node, cnt)

/-- The full pipeline on a source string: tokenize, parse (pipeline parser),
evaluate with a fresh state. -/
def run (s : String) : PRes Value :=
  (tokenize s.toList).bind fun ts =>
  (parse2_prog ts).bind fun p =>
  eval p.1

/-- The token sequence of `([[1] 2])`: a list whose first element is itself a
multi-token list. -/
def tokensNestedList : List Token :=
  [.lparen, .lbrack, .lbrack, .numLiteral ⟨false, 1, false, 0, .noSuffix⟩,
    .rbrack, .numLiteral ⟨false, 2, false, 0, .noSuffix⟩, .rbrack, .rparen, .EOF]

/-- The tree `parse_prog` produces on `tokensNestedList` (its misaligned tail
recursion duplicates the `1`, but the returned count is 8, the EOF index). -/
def treeNestedList : Node :=
  .rule .Prog
    [.rule .Expr
      [.leaf .lparen,
        .rule .ExprBody
          [.rule .Val
            [.rule .List
              [.leaf .lbrack,
                .rule .ListBody
                  [.rule .Val
                    [.rule .List
                      [.leaf .lbrack,
                        .rule .ListBody
                          [.rule .Val
                            [.leaf (.numLiteral ⟨false, 1, false, 0, .noSuffix⟩)]],
                        .leaf .rbrack]],
                    .rule .ListBody
                      [.rule .Val
                        [.leaf (.numLiteral ⟨false, 1, false, 0, .noSuffix⟩)]]],
                .leaf .rbrack]]],
        .leaf .rparen]]

/-! ## Theorems -/

theorem PRes.map_eq {α β : Type} (f : α → β) (x : PRes α) :
    (f <$> x) = match x with
      | .ok a => .ok (f a)
      | .err e => .err e
      | .panic p => .panic p := by
  cases x <;> rfl

section PipelineEval

/-- Inside this section the embedding is locally `simp`-evaluable, so closed
runs of the pipeline reduce. -/
theorem bind_eq_pres_bind {α β : Type} (x : PRes α) (f : α → PRes β) :
    x >>= f = PRes.bind x f := rfl

theorem pure_eq_pres_ok {α : Type} (a : α) : (pure a : PRes α) = .ok a := rfl

attribute [local simp] bind_eq_pres_bind pure_eq_pres_ok PRes.bind PRes.map_eq
  run tokenize tokenizeCore isAsciiChar isDigitChar isLetterChar singleQuote
  handleIdentifier identScan isIdentChar tyFromString reservedFromString
  handleNumLiteral numScan handleCharLiteral handleStringLiteral stringScan
  parse2_prog parse2_expr parse2_expr_body parse2_func_call parse2_args
  parse2_val parse2_list parse2_list_body parse_expr parse_expr_body
  parse_func_call parse_args parse_val parse_list parse_list_body parse_prog
  idxTok isValToken eval eval_prog_node eval_expr_node eval_expr_body_node
  eval_val_node eval_func_call_node eval_args_node eval_list_node
  eval_list_body_node check_list_type checkSubFold tryFoldCoerce coerce_types
  eval_function eval_add get_arg_types valueOfNumLiteral to_f64_checked
  digitCount digitCountAux F64.add F64.ofInt Value.ofF64 Value.ofChar
  Value.ofString Value.ofUnit Value.ty Value.val Value.try_as_number
  Value.try_as_negnumber Value.try_as_int Value.try_as_uint Value.try_as_float
  Argument.get_type Argument.try_get_val Argument.try_get_val_type u64wrap
  u64add i64add i64neg u64toI64 State.new State.get_var State.lookupVar

theorem PRes.bind_eq_ok {α β : Type} {x : PRes α} {f : α → PRes β} {b : β} :
    PRes.bind x f = .ok b ↔ ∃ a, x = .ok a ∧ f a = .ok b := by
  cases x <;> simp [PRes.bind]

theorem PRes.bindM_eq_ok {α β : Type} {x : PRes α} {f : α → PRes β} {b : β} :
    x >>= f = .ok b ↔ ∃ a, x = .ok a ∧ f a = .ok b :=
  PRes.bind_eq_ok

/-- C1: for every pair of abstract types `a`, `b`, `coerce_types a b` and
`coerce_types b a` agree on whether coercion succeeds, and when both succeed
they return the same resulting type. -/
theorem coerce_types_result_symmetric (a b : AbstractType) :
    (coerce_types a b).toOption = (coerce_types b a).toOption ∧
    (coerce_types a b).isOk = (coerce_types b a).isOk := by
  cases a <;> cases b <;>
    first
      | exact ⟨rfl, rfl⟩
      | · rename_i ct
          cases ct <;> exact ⟨rfl, rfl⟩
      | · rename_i ct ct2
          by_cases h : ct = ct2
          · subst h; exact ⟨rfl, rfl⟩
          · simp [coerce_types, h, Ne.symm h, PRes.toOption, PRes.isOk]

theorem emod_as_mod (a b : Int) : a.emod b = a % b := rfl

/-- C2: resolving a `NumLiteral` to a `Value` follows the resolution table:
no suffix gives `Float`/`NegNumber`/`Number` according to the `float` and
`negative` flags (the `NegNumber` payload is the source's wrapping
`-(int_part as i64)`, which equals the mathematical `-int_part` whenever
`int_part ≤ 2^63`); a `Char` suffix succeeds (with a `ConcreteType(Char)`
value) exactly when not float, not negative and `int_part ≤ 255`; an
`Unsigned` suffix succeeds exactly when not float and not negative; a `Float`
suffix always gives a float; every invalid combination is an error. -/
theorem numLiteral_resolution (lit : NumLiteral) :
    (lit.suffix = .noSuffix → lit.float = true →
      ∃ q, valueOfNumLiteral lit = .ok (Value.mk (.concrete .float) (.float q))) ∧
    (lit.suffix = .noSuffix → lit.float = false → lit.negative = true →
      valueOfNumLiteral lit =
        .ok (.mk .negNumber (.negNumber (i64neg (u64toI64 lit.int_part)))) ∧
      (lit.int_part ≤ 2 ^ 63 →
        i64neg (u64toI64 lit.int_part) = -(lit.int_part : Int))) ∧
    (lit.suffix = .noSuffix → lit.float = false → lit.negative = false →
      valueOfNumLiteral lit = .ok (.mk .number (.number lit.int_part))) ∧
    (lit.suffix = .char → lit.float = false → lit.negative = false →
        lit.int_part ≤ 255 →
      valueOfNumLiteral lit = .ok (.mk (.concrete .char) (.char lit.int_part))) ∧
    (lit.suffix = .char →
        (lit.float = true ∨ lit.negative = true ∨ 255 < lit.int_part) →
      (valueOfNumLiteral lit).isErr = true) ∧
    (lit.suffix = .unsigned → lit.float = false → lit.negative = false →
      valueOfNumLiteral lit = .ok (.mk (.concrete .uint) (.uint lit.int_part))) ∧
    (lit.suffix = .unsigned → (lit.float = true ∨ lit.negative = true) →
      (valueOfNumLiteral lit).isErr = true) ∧
    (lit.suffix = .float →
      ∃ q, valueOfNumLiteral lit = .ok (Value.mk (.concrete .float) (.float q))) := by
  obtain ⟨neg, ip, fl, dp, sfx⟩ := lit
  refine ⟨?_, ?_, ?_, ?_, ?_, ?_, ?_, ?_⟩ <;> intro hs
  all_goals simp only at hs
  all_goals subst hs
  · intro hf; simp only at hf; subst hf
    exact ⟨_, rfl⟩
  · intro hf hn; simp only at hf hn; subst hf; subst hn
    refine ⟨rfl, fun hle => ?_⟩
    have hle2 : ip ≤ 2 ^ 63 := hle
    simp only [i64neg, u64toI64, emod_as_mod]
    split <;> omega
  · intro hf hn; simp only at hf hn; subst hf; subst hn
    rfl
  · intro hf hn hle; simp only at hf hn; subst hf; subst hn
    have hle2 : ip ≤ 255 := hle
    simp [valueOfNumLiteral, Nat.not_lt.mpr hle2, Nat.mod_eq_of_lt (by omega : ip < 256)]
  · intro hd
    rcases hd with h | h | h <;> simp only at h
    · subst h; simp [valueOfNumLiteral, PRes.isErr]
    · subst h; simp [valueOfNumLiteral, PRes.isErr]
    · simp [valueOfNumLiteral, h, PRes.isErr]
  · intro hf hn; simp only at hf hn; subst hf; subst hn
    rfl
  · intro hd
    rcases hd with h | h <;> simp only at h <;> subst h <;>
      simp [valueOfNumLiteral, PRes.isErr]
  · exact ⟨_, rfl⟩

/-- C2 witness: the char-suffixed literal `48c` resolves to the char value
`'0'`, the number literal `7` resolves to a `Number`, and the boundary
negative literal `-9223372036854775808` (whose `int_part` is `2^63`)
resolves to the `NegNumber` value `i64::MIN`. -/
theorem numLiteral_resolution_witness :
    valueOfNumLiteral ⟨false, 48, false, 0, .char⟩ =
      .ok (.mk (.concrete .char) (.char 48)) ∧
    valueOfNumLiteral ⟨false, 7, false, 0, .noSuffix⟩ =
      .ok (.mk .number (.number 7)) ∧
    valueOfNumLiteral ⟨true, 9223372036854775808, false, 0, .noSuffix⟩ =
      .ok (.mk .negNumber (.negNumber (-9223372036854775808))) := by
  refine ⟨(numLiteral_resolution ⟨false, 48, false, 0, .char⟩).2.2.2.1 rfl rfl rfl
      (by norm_num),
    (numLiteral_resolution ⟨false, 7, false, 0, .noSuffix⟩).2.2.1 rfl rfl rfl, ?_⟩
  have h :=
    (numLiteral_resolution ⟨true, 9223372036854775808, false, 0, .noSuffix⟩).2.1
      rfl rfl rfl
  rw [h.1, h.2 (by norm_num)]
  norm_num

/-- C3 counterexample: evaluating the program `(add 1)` — an arity mismatch,
`add` requires two value arguments — makes the pipeline abort with a panic
(`assert_eq!` failure) instead of returning an `EvalError` result. -/
theorem run_addOneArg_panics : run "(add 1)" = .panic "assertion failed" := by
  simp +decide

/-- C3 amended: whenever a function call's evaluated arguments do not match
the operator's arity/kind table, `eval_function` panics (the source
`assert_eq!`), rather than returning an `EvalError`; moreover every reserved
operator other than `add` panics (`unimplemented!`) even on arguments that do
match the table. -/
theorem eval_function_mismatch_aborts (f : ReservedIdent) (args : List Argument) :
    (args.map Argument.get_type ≠ get_arg_types f →
      eval_function f args = .panic "assertion failed") ∧
    (f ≠ .add → args.map Argument.get_type = get_arg_types f →
      eval_function f args = .panic "not implemented") := by
  constructor
  · intro h
    unfold eval_function
    rw [if_neg h]
  · intro hf h
    unfold eval_function
    rw [if_pos h]
    cases f <;> first | rfl | exact absurd rfl hf

/-- C3 witness: `add` with one value argument panics with the assertion
failure; `sub` with two value arguments panics with `not implemented`. -/
theorem eval_function_mismatch_aborts_witness :
    eval_function .add [Argument.value (Value.mk .number (.number 1))] =
      .panic "assertion failed" ∧
    eval_function .sub [Argument.value (Value.mk .number (.number 1)),
        Argument.value (Value.mk .number (.number 2))] =
      .panic "not implemented" :=
  ⟨(eval_function_mismatch_aborts .add [Argument.value (Value.mk .number (.number 1))]).1
      (by decide),
    (eval_function_mismatch_aborts .sub [Argument.value (Value.mk .number (.number 1)),
        Argument.value (Value.mk .number (.number 2))]).2
      (by decide) (by decide)⟩

/-- C4: whenever `parse_prog` succeeds, the count it returns is the index of
the terminal EOF token — the parsed program spans all tokens before it. -/
theorem parse_prog_count_is_eof_index (tokens : List Token) (nd : Node) (cnt : Nat)
    (h : parse_prog tokens = .ok (nd, cnt)) : tokens.get? cnt = some .EOF := by
  unfold parse_prog at h
  rw [PRes.bindM_eq_ok] at h
  obtain ⟨⟨n0, c0⟩, hx, h⟩ := h
  simp only at h
  rcases hg : tokens.get? c0 with _ | t <;> simp only [hg] at h
  · exact absurd h (by simp)
  · by_cases ht : t = Token.EOF
    · subst ht
      simp only [ne_eq, not_true_eq_false, if_false, reduceIte] at h
      have hcnt : c0 = cnt := by
        cases h
        rfl
      subst hcnt
      exact hg
    · simp [ht] at h

/-- C4 witness: on `([[1] 2])` — whose first list element is the multi-token
list `[1]` — `parse_prog` succeeds with count 8, and token 8 is the EOF. -/
theorem parse_prog_count_is_eof_index_witness :
    tokensNestedList.get? 8 = some Token.EOF :=
  parse_prog_count_is_eof_index tokensNestedList treeNestedList 8 (by
    simp +decide [tokensNestedList, treeNestedList])

/-- C6: list evaluation unifies all element types through `coerce_types`:
`([1 2])` gives `List<Int>` containing 1 and 2, `([1 2u])` gives
`List<UInt>`, `([-1 2])` gives `List<Int>`; a list whose elements cannot be
unified fails, and the zero-element list `([])` fails (the pipeline rejects
it). -/
theorem run_list_typing :
    run "([1 2])" =
      .ok (.mk (.concrete (.list .int))
        (.list [.mk .number (.number 1), .mk .number (.number 2)])) ∧
    run "([1 2u])" =
      .ok (.mk (.concrete (.list .uint))
        (.list [.mk .number (.number 1), .mk (.concrete .uint) (.uint 2)])) ∧
    run "([-1 2])" =
      .ok (.mk (.concrete (.list .int))
        (.list [.mk .negNumber (.negNumber (-1)), .mk .number (.number 2)])) ∧
    run "([1 \x27a\x27])" = .err "Unable to coerce Number into Number" ∧
    run "([])" =
      .err "Unexpected token encountered while parsing expression body: RBrack" := by
  refine ⟨?_, ?_, ?_, ?_, ?_⟩ <;> simp +decide

/-- C7: the pipeline evaluates `(+ 1.5 1)` to the float 2.5 (`25/10` in the
exact-fraction model of `f64`): the unsuffixed float literal resolves to
`ConcreteType(Float)`, the `Number` marker of the integer literal coerces to
`Float`, and the addition is the `f64` addition of 1 and 1.5. -/
theorem run_add_float_two_point_five :
    run "(+ 1.5 1)" = .ok (.mk (.concrete .float) (.float ⟨25, 10⟩)) ∧
    ((25 : Rat) / 10 = 5 / 2) ∧
    valueOfNumLiteral ⟨false, 1, true, 5, .noSuffix⟩ =
      .ok (.mk (.concrete .float) (.float ⟨15, 10⟩)) ∧
    coerce_types .number (.concrete .float) = .ok (.concrete .float) ∧
    F64.add (F64.ofInt 1) ⟨15, 10⟩ = ⟨25, 10⟩ := by
  refine ⟨?_, by norm_num, by rfl, by rfl, by rfl⟩
  simp +decide

/-- C8: during tokenization a `(` immediately followed by `)` produces a
single `UnitLiteral` token while a `(` followed by anything else produces an
`LParen`; hence `()` is a unit literal but `( )` (with a space) tokenizes to
`LParen RParen`. -/
theorem tokenize_unit_literal_quirk :
    (∀ rest : List Char, tokenizeCore ('(' :: ')' :: rest) =
      (Token.unitLiteral :: ·) <$> tokenizeCore rest) ∧
    (∀ (c : Char) (rest : List Char), c ≠ ')' →
      tokenizeCore ('(' :: c :: rest) =
        (Token.lparen :: ·) <$> tokenizeCore (c :: rest)) ∧
    tokenize "()".toList = .ok [.unitLiteral, .EOF] ∧
    tokenize "( )".toList = .ok [.lparen, .rparen, .EOF] := by
  refine ⟨fun rest => ?_, fun c rest hc => ?_, ?_, ?_⟩
  · conv_lhs => rw [tokenizeCore]
    simp +decide
  · conv_lhs => rw [tokenizeCore]
    simp +decide [hc]
  · simp +decide
  · simp +decide

/-- C8 witness: the general branch facts applied at `(`-space and `(`-`)`
inputs. -/
theorem tokenize_unit_literal_quirk_witness :
    tokenizeCore ('(' :: ')' :: []) = (Token.unitLiteral :: ·) <$> tokenizeCore [] ∧
    tokenizeCore ('(' :: ' ' :: [')']) =
      (Token.lparen :: ·) <$> tokenizeCore (' ' :: [')']) :=
  ⟨tokenize_unit_literal_quirk.1 [],
    tokenize_unit_literal_quirk.2.1 ' ' [')'] (by decide)⟩

end PipelineEval

/-- C9: the variable environment enforces the declared lifecycle:
`create_var` on an existing identifier errors and returns the state
unchanged; `set_var` on an undeclared identifier errors and returns the state
unchanged (adds no binding); `get_var` gives one error for a name never
declared and a distinct error for one declared but never set. -/
theorem state_var_lifecycle (s : State) (ident : String) (v : Option Value)
    (val : Value) :
    (s.containsVar ident = true →
      s.create_var ident v = (.err ("Already have a variable called: " ++ ident), s)) ∧
    (s.containsVar ident = false →
      s.set_var ident val = (.err ("No variable exists with identifier " ++ ident), s)) ∧
    (s.lookupVar ident = none →
      s.get_var ident = .err ("Variable has not been initialized at all: " ++ ident)) ∧
    (s.lookupVar ident = some none →
      s.get_var ident = .err "Variable has been initialized but not set") ∧
    ("Variable has not been initialized at all: " ++ ident ≠
      "Variable has been initialized but not set") := by
  refine ⟨fun h => ?_, fun h => ?_, fun h => ?_, fun h => ?_, fun h => ?_⟩
  · simp [State.create_var, h]
  · simp [State.set_var, h]
  · simp [State.get_var, h]
  · simp [State.get_var, h]
  · have h2 := congrArg String.length h
    rw [String.length_append] at h2
    have hl1 : ("Variable has not been initialized at all: ").length = 42 := by rfl
    have hl2 : ("Variable has been initialized but not set").length = 41 := by rfl
    omega

/-- C9 witness: on the state `{x ↦ unset}` all four behaviors are exercised
for `x` and the undeclared `y`. -/
theorem state_var_lifecycle_witness :
    (State.mk [("x", none)]).create_var "x" none =
      (.err "Already have a variable called: x", State.mk [("x", none)]) ∧
    (State.mk [("x", none)]).set_var "y" Value.ofUnit =
      (.err "No variable exists with identifier y", State.mk [("x", none)]) ∧
    (State.mk [("x", none)]).get_var "y" =
      .err "Variable has not been initialized at all: y" ∧
    (State.mk [("x", none)]).get_var "x" =
      .err "Variable has been initialized but not set" :=
  ⟨(state_var_lifecycle (State.mk [("x", none)]) "x" none Value.ofUnit).1 (by decide),
    (state_var_lifecycle (State.mk [("x", none)]) "y" none Value.ofUnit).2.1 (by decide),
    (state_var_lifecycle (State.mk [("x", none)]) "y" none Value.ofUnit).2.2.1 (by rfl),
    (state_var_lifecycle (State.mk [("x", none)]) "x" none Value.ofUnit).2.2.2.1 (by rfl)⟩

/-- C10 counterexample: the input `1u` is non-empty, its final character is
the ASCII letter `u`, yet `tokenize` succeeds (the `u` is consumed as the
unsigned suffix of the numeric literal) — refuting the claim that every such
input yields the end-of-input identifier lex error. -/
theorem tokenize_trailing_letter_ok :
    tokenize "1u".toList =
      .ok [.numLiteral ⟨false, 1, false, 0, .unsigned⟩, .EOF] ∧
    "1u".toList.getLast? = some 'u' ∧
    isLetterChar 'u' = true := by
  refine ⟨?_, by decide, by decide⟩
  simp +decide [tokenize, tokenizeCore, handleNumLiteral, numScan,
    isAsciiChar, isDigitChar, isLetterChar, singleQuote, u64wrap,
    PRes.map_eq, PRes.bind, bind_eq_pres_bind]

theorem identScan_all_letters (l : List Char)
    (hall : ∀ c ∈ l, isLetterChar c = true) : identScan l = none := by
  induction l with
  | nil => rfl
  | cons c rest ih =>
      have hc := hall c (by simp)
      have : isIdentChar c = true := by simp [isIdentChar, hc]
      simp [identScan, this, ih (fun d hd => hall d (by simp [hd]))]

theorem letter_char_facts (c : Char) (h : isLetterChar c = true) :
    isAsciiChar c = true ∧ (c = '+') = False ∧ (c = '/') = False ∧
    (c = '*') = False ∧ (c = '(') = False ∧ (c = ')') = False ∧
    (c = '[') = False ∧ (c = ']') = False ∧ isDigitChar c = false ∧
    (c = singleQuote) = False ∧ (c = '"') = False ∧ (c = '-') = False := by
  simp only [isLetterChar, Bool.or_eq_true, Bool.and_eq_true, decide_eq_true_eq] at h
  refine ⟨?_, ?_, ?_, ?_, ?_, ?_, ?_, ?_, ?_, ?_, ?_, ?_⟩
  · simp only [isAsciiChar, decide_eq_true_eq]
    omega
  all_goals
    first
      | · simp only [eq_iff_iff, iff_false]
          intro he
          subst he
          revert h
          decide
      | · simp only [isDigitChar, Bool.and_eq_false_iff, decide_eq_false_iff_not,
            Nat.not_le]
          omega

/-- C10 amended: for every non-empty input consisting solely of ASCII
letters, `tokenize` fails with the end-of-input identifier lex error — even
when the text is a well-formed identifier, type name, or reserved keyword
(e.g. the bare `abc`).  Inputs whose final letter is reached in another
lexical context (numeric suffix, string or char literal) behave differently,
as the counterexample `1u` shows. -/
theorem tokenize_all_letters_errs (l : List Char) (hne : l ≠ [])
    (hall : ∀ c ∈ l, isLetterChar c = true) :
    tokenize l = .err "Unexpectedly reached end of input while parsing an identifier" := by
  have hfilter : l.filter isAsciiChar = l :=
    List.filter_eq_self.mpr (fun c hc => (letter_char_facts c (hall c hc)).1)
  unfold tokenize
  rw [hfilter]
  cases l with
  | nil => exact absurd rfl hne
  | cons c rest =>
      have hc := hall c (by simp)
      obtain ⟨-, h1, h2, h3, h4, h5, h6, h7, h8, h9, h10, h11⟩ :=
        letter_char_facts c hc
      rw [tokenizeCore.eq_def]
      simp only [h1, h2, h3, h4, h5, h6, h7, h8, h9, h10, h11, if_false,
        Bool.false_eq_true, hc, if_true]
      rw [handleIdentifier, identScan_all_letters (c :: rest) hall]

/-- C10 amended witness: the bare input `abc` fails to tokenize with the
identifier end-of-input error. -/
theorem tokenize_all_letters_errs_witness :
    tokenize "abc".toList =
      .err "Unexpectedly reached end of input while parsing an identifier" :=
  tokenize_all_letters_errs "abc".toList (by decide) (by decide)

/-! ### Read-bound stability of the parser

Every successful run of a parsing rule only inspects a bounded prefix of the
token slice (`cnt` tokens for `Expr`/`List`, `cnt + 1` for the others), so
its ok-result transfers to any slice agreeing on that prefix.  This is the
key fact behind the rejection of trailing tokens. -/

theorem get?_eq_of_take_eq {α : Type} {l l' : List α} {K i : Nat}
    (h : l.take K = l'.take K) (hi : i < K) : l.get? i = l'.get? i := by
  have h1 : (l.take K).get? i = l.get? i := List.get?_take hi
  have h2 : (l'.take K).get? i = l'.get? i := List.get?_take hi
  rw [← h1, ← h2, h]

theorem take_eq_cons_destruct {α : Type} {a : α} {l ts' : List α} {K : Nat}
    (h : (a :: l).take (K + 1) = ts'.take (K + 1)) :
    ∃ l', ts' = a :: l' ∧ l.take K = l'.take K := by
  cases ts' with
  | nil => simp [List.take_succ_cons] at h
  | cons b m =>
      rw [List.take_succ_cons, List.take_succ_cons] at h
      obtain ⟨h1, h2⟩ := List.cons.inj h
      exact ⟨m, by rw [h1], h2⟩

theorem parse_expr_ok_ge2 {ts : List Token} {nd : Node} {cnt : Nat}
    (h : parse_expr ts = .ok (nd, cnt)) : 2 ≤ cnt := by
  cases ts with
  | nil => simp [parse_expr.eq_def] at h
  | cons t0 rest =>
      simp only [parse_expr] at h
      split at h
      · rw [PRes.bindM_eq_ok] at h
        obtain ⟨⟨ch, c0⟩, hb, h⟩ := h
        simp only at h
        rw [PRes.bindM_eq_ok] at h
        obtain ⟨t1, hidx, h⟩ := h
        split at h
        · cases h
          omega
        · cases h
      · cases h

theorem parse_list_ok_ge2 {ts : List Token} {nd : Node} {cnt : Nat}
    (h : parse_list ts = .ok (nd, cnt)) : 2 ≤ cnt := by
  cases ts with
  | nil => simp [parse_list.eq_def] at h
  | cons t0 rest =>
      simp only [parse_list] at h
      split at h
      · rw [PRes.bindM_eq_ok] at h
        obtain ⟨⟨ch, c0⟩, hb, h⟩ := h
        simp only at h
        rw [PRes.bindM_eq_ok] at h
        obtain ⟨t1, hidx, h⟩ := h
        split at h
        · cases h
          omega
        · cases h
      · cases h

theorem parse_val_ok_ge1 {ts : List Token} {nd : Node} {cnt : Nat}
    (h : parse_val ts = .ok (nd, cnt)) : 1 ≤ cnt := by
  cases ts with
  | nil => simp [parse_val.eq_def] at h
  | cons t0 rest =>
      rw [parse_val.eq_def] at h
      dsimp only at h
      split at h
      · rw [PRes.bindM_eq_ok] at h
        obtain ⟨⟨ch, c0⟩, hb, h⟩ := h
        simp only at h
        cases h
        have := parse_list_ok_ge2 hb
        omega
      · rw [PRes.bindM_eq_ok] at h
        obtain ⟨⟨ch, c0⟩, hb, h⟩ := h
        simp only at h
        cases h
        have := parse_expr_ok_ge2 hb
        omega
      · split at h
        · cases h
          omega
        · cases h

theorem parse_args_ok_ge1 {ts : List Token} {nd : Node} {cnt : Nat}
    (h : parse_args ts = .ok (nd, cnt)) : 1 ≤ cnt := by
  cases ts with
  | nil => simp [parse_args.eq_def] at h
  | cons t0 rest =>
      rw [parse_args.eq_def] at h
      dsimp only at h
      split at h
      · rw [PRes.bindM_eq_ok] at h
        obtain ⟨⟨v, vc⟩, hv, h⟩ := h
        simp only at h
        split at h
        · cases h
        · rename_i t hg
          split at h
          · cases h
            have := parse_val_ok_ge1 hv
            omega
          · rw [PRes.bindM_eq_ok] at h
            obtain ⟨⟨tl, tc⟩, ht, h⟩ := h
            simp only at h
            cases h
            have := parse_val_ok_ge1 hv
            omega
      · cases h

theorem parse_list_body_ok_ge1 {ts : List Token} {nd : Node} {cnt : Nat}
    (h : parse_list_body ts = .ok (nd, cnt)) : 1 ≤ cnt := by
  cases ts with
  | nil => simp [parse_list_body.eq_def] at h
  | cons t0 rest =>
      rw [parse_list_body.eq_def] at h
      dsimp only at h
      split at h
      · rw [PRes.bindM_eq_ok] at h
        obtain ⟨⟨v, vc⟩, hv, h⟩ := h
        simp only at h
        split at h
        · cases h
        · rename_i t hg
          split at h
          · cases h
            have := parse_val_ok_ge1 hv
            omega
          · rw [PRes.bindM_eq_ok] at h
            obtain ⟨⟨tl, tc⟩, ht, h⟩ := h
            simp only at h
            cases h
            have := parse_val_ok_ge1 hv
            omega
      · cases h

theorem idxTok_ok {ts : List Token} {i : Nat} {t : Token} :
    idxTok ts i = .ok t ↔ ts.get? i = some t := by
  unfold idxTok
  cases hg : ts.get? i <;> simp

theorem take_agree_mono {α : Type} {l l' : List α} {J K : Nat}
    (h : l.take K = l'.take K) (hJK : J ≤ K) : l.take J = l'.take J := by
  have h2 := congrArg (List.take J) h
  simpa [List.take_take, Nat.min_eq_left hJK] using h2

theorem parse_val_lbrack_eq (rest : List Token) :
    parse_val (.lbrack :: rest) = (do
      let (child, cnt) ← parse_list (.lbrack :: rest)
      PRes.ok (Node.rule .Val [child], cnt)) := by
  rw [parse_val.eq_def]

theorem parse_val_lparen_eq (rest : List Token) :
    parse_val (.lparen :: rest) = (do
      let (child, cnt) ← parse_expr (.lparen :: rest)
      PRes.ok (Node.rule .Val [child], cnt)) := by
  rw [parse_val.eq_def]

theorem parse_val_other_eq (t0 : Token) (rest : List Token)
    (h2 : t0 ≠ .lbrack) (h3 : t0 ≠ .lparen) :
    parse_val (t0 :: rest) =
      if isValToken t0 then
        .ok (.rule .Val [.leaf t0], 1)
      else
        .err ("Unexpected token while parsing value: " ++ t0.fmtDebug) := by
  cases t0 <;>
    first
      | exact absurd rfl h2
      | exact absurd rfl h3
      | rw [parse_val.eq_def]

theorem parse_expr_body_reserved_eq (f : ReservedIdent) (rest : List Token) :
    parse_expr_body (.reserved f :: rest) = (do
      let (child, cnt) ← parse_func_call (.reserved f :: rest)
      PRes.ok (Node.rule .ExprBody [child], cnt)) := by
  rw [parse_expr_body.eq_def]

theorem parse_expr_body_other_eq (t0 : Token) (rest : List Token)
    (h1 : ∀ f, t0 ≠ .reserved f) :
    parse_expr_body (t0 :: rest) =
      if isValToken t0 then (do
        let (child, cnt) ← parse_val (t0 :: rest)
        PRes.ok (Node.rule .ExprBody [child], cnt))
      else
        .err ("Unexpected token encountered while parsing expression body: "
          ++ t0.fmtDebug) := by
  cases t0 <;>
    first
      | exact absurd rfl (h1 _)
      | rw [parse_expr_body.eq_def]

/-- Simultaneous read-bound stability of all seven parsing rules, by strong
induction on the slice length: a successful parse only depends on the prefix
of `cnt` tokens (`cnt + 1` for the rules with terminal lookahead). -/
theorem parse_stable (N : Nat) :
    (∀ ts ts' nd cnt, ts.length ≤ N → parse_expr ts = .ok (nd, cnt) →
      ts.take cnt = ts'.take cnt → parse_expr ts' = .ok (nd, cnt)) ∧
    (∀ ts ts' nd cnt, ts.length ≤ N → parse_list ts = .ok (nd, cnt) →
      ts.take cnt = ts'.take cnt → parse_list ts' = .ok (nd, cnt)) ∧
    (∀ ts ts' nd cnt, ts.length ≤ N → parse_func_call ts = .ok (nd, cnt) →
      ts.take (cnt + 1) = ts'.take (cnt + 1) → parse_func_call ts' = .ok (nd, cnt)) ∧
    (∀ ts ts' nd cnt, ts.length ≤ N → parse_val ts = .ok (nd, cnt) →
      ts.take (cnt + 1) = ts'.take (cnt + 1) → parse_val ts' = .ok (nd, cnt)) ∧
    (∀ ts ts' nd cnt, ts.length ≤ N → parse_expr_body ts = .ok (nd, cnt) →
      ts.take (cnt + 1) = ts'.take (cnt + 1) → parse_expr_body ts' = .ok (nd, cnt)) ∧
    (∀ ts ts' nd cnt, ts.length ≤ N → parse_args ts = .ok (nd, cnt) →
      ts.take (cnt + 1) = ts'.take (cnt + 1) → parse_args ts' = .ok (nd, cnt)) ∧
    (∀ ts ts' nd cnt, ts.length ≤ N → parse_list_body ts = .ok (nd, cnt) →
      ts.take (cnt + 1) = ts'.take (cnt + 1) → parse_list_body ts' = .ok (nd, cnt)) := by
  induction N with
  | zero =>
      refine ⟨?_, ?_, ?_, ?_, ?_, ?_, ?_⟩ <;>
        · intro ts ts' nd cnt hlen h hagree
          have hts : ts = [] := List.length_eq_zero.mp (Nat.le_zero.mp hlen)
          subst hts
          first
            | simp [parse_expr.eq_def] at h
            | simp [parse_list.eq_def] at h
            | simp [parse_func_call.eq_def] at h
            | simp [parse_val.eq_def] at h
            | simp [parse_expr_body.eq_def] at h
            | simp [parse_args.eq_def] at h
            | simp [parse_list_body.eq_def] at h
  | succ N ih =>
      obtain ⟨ihE, ihL, ihF, ihV, ihB, ihA, ihLB⟩ := ih
      have hexpr : ∀ ts ts' nd cnt, ts.length ≤ N + 1 → parse_expr ts = .ok (nd, cnt) →
          ts.take cnt = ts'.take cnt → parse_expr ts' = .ok (nd, cnt) := by
        intro ts ts' nd cnt hlen h hagree
        cases ts with
        | nil => simp [parse_expr.eq_def] at h
        | cons t0 rest =>
            rw [parse_expr.eq_def] at h
            dsimp only at h
            split at h
            · rename_i hlp
              rw [PRes.bindM_eq_ok] at h
              obtain ⟨⟨ch, c0⟩, hb, h⟩ := h
              simp only at h
              rw [PRes.bindM_eq_ok] at h
              obtain ⟨t1, hidx, h⟩ := h
              split at h
              · rename_i hrp
                cases h
                obtain ⟨rest', hts', hrest⟩ := take_eq_cons_destruct (K := c0 + 1) hagree
                subst hts'
                have hlen2 : rest.length ≤ N := by simp at hlen; omega
                have hb' := ihB rest rest' ch c0 hlen2 hb hrest
                have hg' : (t0 :: rest').get? (c0 + 1) = some t1 := by
                  rw [← get?_eq_of_take_eq hagree (by omega)]
                  exact idxTok_ok.mp hidx
                simp only [List.get?_eq_getElem?, List.getElem?_cons_succ] at hg'
                subst hlp
                simp [parse_expr.eq_def, bind_eq_pres_bind, PRes.bind, hb',
                  idxTok, hg', hrp]
              · cases h
            · cases h
      have hlist : ∀ ts ts' nd cnt, ts.length ≤ N + 1 → parse_list ts = .ok (nd, cnt) →
          ts.take cnt = ts'.take cnt → parse_list ts' = .ok (nd, cnt) := by
        intro ts ts' nd cnt hlen h hagree
        cases ts with
        | nil => simp [parse_list.eq_def] at h
        | cons t0 rest =>
            rw [parse_list.eq_def] at h
            dsimp only at h
            split at h
            · rename_i hlb
              rw [PRes.bindM_eq_ok] at h
              obtain ⟨⟨ch, c0⟩, hb, h⟩ := h
              simp only at h
              rw [PRes.bindM_eq_ok] at h
              obtain ⟨t1, hidx, h⟩ := h
              split at h
              · rename_i hrb
                cases h
                obtain ⟨rest', hts', hrest⟩ := take_eq_cons_destruct (K := c0 + 1) hagree
                subst hts'
                have hlen2 : rest.length ≤ N := by simp at hlen; omega
                have hb' := ihLB rest rest' ch c0 hlen2 hb hrest
                have hg' : (t0 :: rest').get? (c0 + 1) = some t1 := by
                  rw [← get?_eq_of_take_eq hagree (by omega)]
                  exact idxTok_ok.mp hidx
                simp only [List.get?_eq_getElem?, List.getElem?_cons_succ] at hg'
                subst hlb
                simp [parse_list.eq_def, bind_eq_pres_bind, PRes.bind, hb',
                  idxTok, hg', hrb]
              · cases h
            · cases h
      have hfc : ∀ ts ts' nd cnt, ts.length ≤ N + 1 → parse_func_call ts = .ok (nd, cnt) →
          ts.take (cnt + 1) = ts'.take (cnt + 1) → parse_func_call ts' = .ok (nd, cnt) := by
        intro ts ts' nd cnt hlen h hagree
        cases ts with
        | nil => simp [parse_func_call.eq_def] at h
        | cons t0 rest =>
            rw [parse_func_call.eq_def] at h
            dsimp only at h
            split at h
            · rename_i func
              rw [PRes.bindM_eq_ok] at h
              obtain ⟨⟨ch, c0⟩, ha, h⟩ := h
              simp only at h
              cases h
              obtain ⟨rest', hts', hrest⟩ := take_eq_cons_destruct (K := c0 + 1) hagree
              subst hts'
              have hlen2 : rest.length ≤ N := by simp at hlen; omega
              have ha' := ihA rest rest' ch c0 hlen2 ha hrest
              simp [parse_func_call.eq_def, bind_eq_pres_bind, PRes.bind, ha']
            · cases h
      have hval : ∀ ts ts' nd cnt, ts.length ≤ N + 1 → parse_val ts = .ok (nd, cnt) →
          ts.take (cnt + 1) = ts'.take (cnt + 1) → parse_val ts' = .ok (nd, cnt) := by
        intro ts ts' nd cnt hlen h hagree
        cases ts with
        | nil => simp [parse_val.eq_def] at h
        | cons t0 rest =>
            cases t0
            case lbrack =>
              rw [parse_val_lbrack_eq] at h
              rw [PRes.bindM_eq_ok] at h
              obtain ⟨⟨ch, c0⟩, hb, h⟩ := h
              simp only at h
              cases h
              obtain ⟨rest', hts', hrest⟩ := take_eq_cons_destruct (K := cnt) hagree
              subst hts'
              have hb' := hlist (Token.lbrack :: rest) (Token.lbrack :: rest') ch cnt hlen hb
                (take_agree_mono hagree (by omega))
              simp [parse_val_lbrack_eq, bind_eq_pres_bind, PRes.bind, hb']
            case lparen =>
              rw [parse_val_lparen_eq] at h
              rw [PRes.bindM_eq_ok] at h
              obtain ⟨⟨ch, c0⟩, hb, h⟩ := h
              simp only at h
              cases h
              obtain ⟨rest', hts', hrest⟩ := take_eq_cons_destruct (K := cnt) hagree
              subst hts'
              have hb' := hexpr (Token.lparen :: rest) (Token.lparen :: rest') ch cnt hlen hb
                (take_agree_mono hagree (by omega))
              simp [parse_val_lparen_eq, bind_eq_pres_bind, PRes.bind, hb']
            all_goals
              rw [parse_val_other_eq _ _ (fun hh => by cases hh) (fun hh => by cases hh)] at h
            all_goals split at h
            all_goals try cases h
            all_goals (
              obtain ⟨rest', hts', hrest⟩ := take_eq_cons_destruct (K := 1) hagree
              subst hts'
              rw [parse_val_other_eq _ _ (fun hh => by cases hh) (fun hh => by cases hh)]
              rename_i hvt
              rw [if_pos hvt])
      have hbody : ∀ ts ts' nd cnt, ts.length ≤ N + 1 → parse_expr_body ts = .ok (nd, cnt) →
          ts.take (cnt + 1) = ts'.take (cnt + 1) → parse_expr_body ts' = .ok (nd, cnt) := by
        intro ts ts' nd cnt hlen h hagree
        cases ts with
        | nil => simp [parse_expr_body.eq_def] at h
        | cons t0 rest =>
            cases t0
            case reserved func =>
              rw [parse_expr_body_reserved_eq] at h
              rw [PRes.bindM_eq_ok] at h
              obtain ⟨⟨ch, c0⟩, hf0, h⟩ := h
              simp only at h
              cases h
              obtain ⟨rest', hts', hrest⟩ := take_eq_cons_destruct (K := cnt) hagree
              subst hts'
              have hf' := hfc (Token.reserved func :: rest) (Token.reserved func :: rest')
                ch cnt hlen hf0 hagree
              simp [parse_expr_body_reserved_eq, bind_eq_pres_bind, PRes.bind, hf']
            all_goals
              rw [parse_expr_body_other_eq _ _ (fun f hh => by cases hh)] at h
            all_goals split at h
            all_goals try cases h
            all_goals (
              rename_i hvt
              rw [PRes.bindM_eq_ok] at h
              obtain ⟨⟨ch, c0⟩, hv0, h⟩ := h
              simp only at h
              cases h
              obtain ⟨rest', hts', hrest⟩ := take_eq_cons_destruct (K := cnt) hagree
              subst hts'
              have hv' := hval _ _ ch cnt hlen hv0 hagree
              rw [parse_expr_body_other_eq _ _ (fun f hh => by cases hh)]
              rw [if_pos hvt]
              simp [bind_eq_pres_bind, PRes.bind, hv'])
      have hargs : ∀ ts ts' nd cnt, ts.length ≤ N + 1 → parse_args ts = .ok (nd, cnt) →
          ts.take (cnt + 1) = ts'.take (cnt + 1) → parse_args ts' = .ok (nd, cnt) := by
        intro ts ts' nd cnt hlen h hagree
        cases ts with
        | nil => simp [parse_args.eq_def] at h
        | cons t0 rest =>
            rw [parse_args.eq_def] at h
            dsimp only at h
            split at h
            · rename_i hvt
              rw [PRes.bindM_eq_ok] at h
              obtain ⟨⟨v, vc⟩, hv0, h⟩ := h
              simp only at h
              split at h
              · cases h
              · rename_i t hg
                split at h
                · rename_i hrp
                  cases h
                  obtain ⟨rest', hts', hrest⟩ := take_eq_cons_destruct (K := cnt) hagree
                  subst hts'
                  have hv' := hval (t0 :: rest) (t0 :: rest') v cnt hlen hv0 hagree
                  have hg' : (t0 :: rest').get? cnt = some t := by
                    rw [← get?_eq_of_take_eq hagree (by omega)]
                    exact hg
                  rw [parse_args.eq_def]
                  dsimp only
                  rw [if_pos hvt, bind_eq_pres_bind, hv']
                  dsimp only [PRes.bind]
                  rw [hg']
                  dsimp only
                  rw [if_pos hrp]
                · rename_i hrp
                  rw [PRes.bindM_eq_ok] at h
                  obtain ⟨⟨tl, tc⟩, ht0, h⟩ := h
                  simp only at h
                  cases h
                  have hvc1 : 1 ≤ vc := parse_val_ok_ge1 hv0
                  have htc1 : 1 ≤ tc := parse_args_ok_ge1 ht0
                  obtain ⟨rest', hts', hrest⟩ :=
                    take_eq_cons_destruct (K := vc + tc) hagree
                  subst hts'
                  have hlen2 : rest.length ≤ N := by simp at hlen; omega
                  have hv' := hval (t0 :: rest) (t0 :: rest') v vc hlen hv0
                    (take_agree_mono hagree (by omega))
                  have ht' := ihA rest rest' tl tc hlen2 ht0
                    (take_agree_mono hrest (by omega))
                  have hg' : (t0 :: rest').get? vc = some t := by
                    rw [← get?_eq_of_take_eq hagree (by omega)]
                    exact hg
                  rw [parse_args.eq_def]
                  dsimp only
                  rw [if_pos hvt, bind_eq_pres_bind, hv']
                  dsimp only [PRes.bind]
                  rw [hg']
                  dsimp only
                  rw [if_neg hrp, bind_eq_pres_bind, ht']
                  dsimp only [PRes.bind]
            · cases h
      have hlb : ∀ ts ts' nd cnt, ts.length ≤ N + 1 → parse_list_body ts = .ok (nd, cnt) →
          ts.take (cnt + 1) = ts'.take (cnt + 1) → parse_list_body ts' = .ok (nd, cnt) := by
        intro ts ts' nd cnt hlen h hagree
        cases ts with
        | nil => simp [parse_list_body.eq_def] at h
        | cons t0 rest =>
            rw [parse_list_body.eq_def] at h
            dsimp only at h
            split at h
            · rename_i hvt
              rw [PRes.bindM_eq_ok] at h
              obtain ⟨⟨v, vc⟩, hv0, h⟩ := h
              simp only at h
              split at h
              · cases h
              · rename_i t hg
                split at h
                · rename_i hrb
                  cases h
                  obtain ⟨rest', hts', hrest⟩ := take_eq_cons_destruct (K := cnt) hagree
                  subst hts'
                  have hv' := hval (t0 :: rest) (t0 :: rest') v cnt hlen hv0 hagree
                  have hg' : (t0 :: rest').get? cnt = some t := by
                    rw [← get?_eq_of_take_eq hagree (by omega)]
                    exact hg
                  rw [parse_list_body.eq_def]
                  dsimp only
                  rw [if_pos hvt, bind_eq_pres_bind, hv']
                  dsimp only [PRes.bind]
                  rw [hg']
                  dsimp only
                  rw [if_pos hrb]
                · rename_i hrb
                  rw [PRes.bindM_eq_ok] at h
                  obtain ⟨⟨tl, tc⟩, ht0, h⟩ := h
                  simp only at h
                  cases h
                  have hvc1 : 1 ≤ vc := parse_val_ok_ge1 hv0
                  have htc1 : 1 ≤ tc := parse_list_body_ok_ge1 ht0
                  obtain ⟨rest', hts', hrest⟩ :=
                    take_eq_cons_destruct (K := vc + tc) hagree
                  subst hts'
                  have hlen2 : rest.length ≤ N := by simp at hlen; omega
                  have hv' := hval (t0 :: rest) (t0 :: rest') v vc hlen hv0
                    (take_agree_mono hagree (by omega))
                  have ht' := ihLB rest rest' tl tc hlen2 ht0
                    (take_agree_mono hrest (by omega))
                  have hg' : (t0 :: rest').get? vc = some t := by
                    rw [← get?_eq_of_take_eq hagree (by omega)]
                    exact hg
                  rw [parse_list_body.eq_def]
                  dsimp only
                  rw [if_pos hvt, bind_eq_pres_bind, hv']
                  dsimp only [PRes.bind]
                  rw [hg']
                  dsimp only
                  rw [if_neg hrb, bind_eq_pres_bind, ht']
                  dsimp only [PRes.bind]
            · cases h
      exact ⟨hexpr, hlist, hfc, hval, hbody, hargs, hlb⟩

/-- C5: `parse_prog` succeeds only when the token right after the parsed
expression is EOF.  Universally: inserting any extra non-EOF token between a
complete program (one `parse_prog` accepts) and its EOF turns the parse into
a `ParseError` naming the offending token — never a silent acceptance.
Concretely: a missing `)` and a mismatched `]`/`)` also yield descriptive
errors naming the offending token. -/
theorem parse_prog_rejects_trailing_tokens :
    (∀ (P : List Token) (t : Token) (nd : Node) (cnt : Nat),
      Token.EOF ∉ P → t ≠ Token.EOF →
      parse_prog (P ++ [Token.EOF]) = .ok (nd, cnt) →
      parse_prog (P ++ [t, Token.EOF]) =
        .err ("Unexpected token where EOF was expected: " ++ t.fmtDebug)) ∧
    parse_prog [Token.lparen, Token.numLiteral ⟨false, 1, false, 0, .noSuffix⟩,
        Token.EOF] =
      .err "Expected ) while parsing expression, encountered EOF" ∧
    parse_prog [Token.lparen, Token.lbrack,
        Token.numLiteral ⟨false, 1, false, 0, .noSuffix⟩,
        Token.numLiteral ⟨false, 2, false, 0, .noSuffix⟩,
        Token.rparen, Token.EOF] =
      .err "Unexpected token encountered while parsing expression body: RParen" := by
  refine ⟨?_, ?_, ?_⟩
  · intro P t nd cnt hPno ht h
    unfold parse_prog at h
    rw [bind_eq_pres_bind, PRes.bind_eq_ok] at h
    obtain ⟨⟨n1, c1⟩, hx, h⟩ := h
    simp only at h
    split at h
    · cases h
    · rename_i u hg
      split at h
      · cases h
      · rename_i hne
        rw [PRes.ok.injEq, Prod.mk.injEq] at h
        obtain ⟨hnd, hc⟩ := h
        have hu : u = Token.EOF := not_not.mp hne
        subst hu
        subst hc
        have hcnt : c1 = P.length := by
          rcases Nat.lt_trichotomy c1 P.length with hlt | heq | hgt
          · exfalso
            rw [List.get?_append hlt] at hg
            exact hPno (List.get?_mem hg)
          · exact heq
          · exfalso
            rw [List.get?_append_right (by omega)] at hg
            rcases hd : c1 - P.length with _ | k
            · omega
            · rw [hd] at hg
              cases k <;> cases hg
        subst hcnt
        have hagree : (P ++ [Token.EOF]).take P.length =
            (P ++ [t, Token.EOF]).take P.length := by
          rw [List.take_left P [Token.EOF], List.take_left P [t, Token.EOF]]
        have hstab := (parse_stable (P ++ [Token.EOF]).length).1
          (P ++ [Token.EOF]) (P ++ [t, Token.EOF]) n1 P.length
          (Nat.le_refl _) hx hagree
        unfold parse_prog
        rw [bind_eq_pres_bind, hstab]
        dsimp only [PRes.bind]
        have hg2 : (P ++ [t, Token.EOF]).get? P.length = some t := by
          rw [List.get?_append_right (Nat.le_refl _)]
          simp
        rw [hg2]
        dsimp only
        rw [if_pos ht]
  · simp +decide [parse_prog, parse_expr, parse_expr_body, parse_func_call,
      parse_args, parse_val, parse_list, parse_list_body, idxTok, isValToken,
      bind_eq_pres_bind, PRes.bind, Token.fmtDebug]
  · simp +decide [parse_prog, parse_expr, parse_expr_body, parse_func_call,
      parse_args, parse_val, parse_list, parse_list_body, idxTok, isValToken,
      bind_eq_pres_bind, PRes.bind, Token.fmtDebug]

/-- C5 witness: the complete program `(1)` followed by an extra literal `2`
before EOF is rejected with the EOF-expected parse error. -/
theorem parse_prog_rejects_trailing_tokens_witness :
    parse_prog ([Token.lparen, Token.numLiteral ⟨false, 1, false, 0, .noSuffix⟩,
        Token.rparen] ++
        [Token.numLiteral ⟨false, 2, false, 0, .noSuffix⟩, Token.EOF]) =
      .err ("Unexpected token where EOF was expected: " ++
        (Token.numLiteral ⟨false, 2, false, 0, .noSuffix⟩).fmtDebug) :=
  parse_prog_rejects_trailing_tokens.1
    [Token.lparen, Token.numLiteral ⟨false, 1, false, 0, .noSuffix⟩, Token.rparen]
    (Token.numLiteral ⟨false, 2, false, 0, .noSuffix⟩)
    (Node.rule .Prog
      [Node.rule .Expr
        [Node.leaf .lparen,
          Node.rule .ExprBody
            [Node.rule .Val
              [Node.leaf (.numLiteral ⟨false, 1, false, 0, .noSuffix⟩)]],
          Node.leaf .rparen]])
    3
    (by decide) (by decide)
    (by simp +decide [parse_prog, parse_expr, parse_expr_body, parse_func_call,
      parse_args, parse_val, parse_list, parse_list_body, idxTok, isValToken,
      bind_eq_pres_bind, PRes.bind])

end BLisp
